import Mathlib

/-!
Verification development for the vnts server packet handler core
(src/core/service/server.rs and src/core/entity/mod.rs).

The Rust code is shallowly embedded: machine integers (u16/u32/u64) become
Nat with explicit truncation where the source truncates; the concurrent
HashMap directories become association lists (iteration order of a HashMap
is arbitrary; the list order stands for one such order); fallible code
returns Except.  Parts of the repository that are referenced but whose
source is not available (the NetPacket envelope codec, the cipher module,
the session cache, the external packet crate) are modelled from the
specification; every such definition carries a doc comment saying so.
-/

/-- Truncation of a Nat to u32, mirroring Rust `as u32`. -/
def u32trunc (n : Nat) : Nat := n % 4294967296

/-- Truncation of a Nat to u16, mirroring Rust `as u16`. -/
def u16trunc (n : Nat) : Nat := n % 65536

/-- Bitwise complement on u32, mirroring Rust `!mask` on a `u32`
(XOR with the all-ones 32-bit word, which on u32 values equals
4294967295 - n). -/
def u32not (n : Nat) : Nat := n ^^^ 4294967295

/-- Association-list lookup (model of HashMap::get): first binding wins. -/
def alGet {α β : Type} [DecidableEq α] : List (α × β) → α → Option β
  | [], _ => none
  | (k, v) :: rest, key => if k = key then some v else alGet rest key

/-- Association-list key membership (model of HashMap::contains_key). -/
def alContains {α β : Type} [DecidableEq α] (l : List (α × β)) (key : α) : Bool :=
  (alGet l key).isSome

/-- Association-list overwrite-or-append (model of HashMap::insert). -/
def alSet {α β : Type} [DecidableEq α] : List (α × β) → α → β → List (α × β)
  | [], key, val => [(key, val)]
  | (k, v) :: rest, key, val =>
      if k = key then (key, val) :: rest else (k, v) :: alSet rest key val

/-- Association-list in-place modification (model of HashMap::get_mut):
a no-op when the key is absent. -/
def alModify {α β : Type} [DecidableEq α] : List (α × β) → α → (β → β) → List (α × β)
  | [], _, _ => []
  | (k, v) :: rest, key, f =>
      if k = key then (k, f v) :: rest else (k, v) :: alModify rest key f

/-- Association-list upsert (model of HashMap::entry(k).or_insert(dflt)
followed by mutating the entry with f). -/
def alUpsert {α β : Type} [DecidableEq α] (l : List (α × β)) (key : α) (dflt : β)
    (f : β → β) : List (α × β) :=
  if alContains l key then alModify l key f else l ++ [(key, f dflt)]

/-- Modelled from the spec: std::net::IpAddr, either a v4 address (as u32)
or a v6 address (as its 16 octets). -/
inductive IpAddrM where
  | v4 (ip : Nat)
  | v6 (octets : List Nat)
deriving DecidableEq, Repr

/-- Modelled from the spec: Ipv6Addr::to_ipv4_mapped, defined on the
16-octet form ::ffff:a.b.c.d. -/
def toIpv4Mapped (octets : List Nat) : Option Nat :=
  match octets with
  | [0, 0, 0, 0, 0, 0, 0, 0, 0, 0, 255, 255, a, b, c, d] =>
      some (((a * 256 + b) * 256 + c) * 256 + d)
  | _ => none

/-- Modelled from the spec: std::net::SocketAddr. -/
structure SockAddrM where
  ip : IpAddrM
  port : Nat
deriving DecidableEq, Repr

/-- Modelled from the spec: an AES-256-GCM session; Finger::new(token) is
abstracted to the token string itself. -/
structure AesM where
  key : List Nat
  finger : String
deriving DecidableEq, Repr

/-- Modelled from the spec: the server RSA key pair (public part and its
fingerprint). -/
structure RsaM where
  public_key : List Nat
  key_finger : String
deriving DecidableEq, Repr

/-- Error surface of the handler, from crate::error as used by server.rs. -/
inductive ErrorM where
  | NoKey
  | Disconnect
  | TokenError
  | InvalidIp
  | IpAlreadyExists
  | AddressExhausted
  | Other (msg : String)
deriving DecidableEq, Repr

/-- Entity ClientStatusInfo from src/core/entity/mod.rs; update_time is an
abstract timestamp passed in by the caller. -/
structure ClientStatusInfo where
  p2p_list : List Nat
  up_stream : Nat
  down_stream : Nat
  is_cone : Bool
  update_time : Nat
deriving DecidableEq, Repr

/-- Entity ClientInfo from src/core/entity/mod.rs; the tcp sender channel
is abstracted to an identifier. -/
structure ClientInfo where
  device_id : String
  name : String
  client_secret : Bool
  server_secret : Option AesM
  address : SockAddrM
  online : Bool
  virtual_ip : Nat
  tcp_sender : Option Nat
  client_status : Option ClientStatusInfo
deriving DecidableEq, Repr

/-- Default for ClientInfo from src/core/entity/mod.rs. -/
def ClientInfo.default : ClientInfo :=
  { device_id := ""
    name := ""
    client_secret := false
    server_secret := none
    address := { ip := IpAddrM.v4 0, port := 0 }
    online := false
    virtual_ip := 0
    tcp_sender := none
    client_status := none }

/-- Entity NetworkInfo from src/core/entity/mod.rs; the clients HashMap is
modelled as an association list. -/
structure NetworkInfo where
  network_ip : Nat
  mask_ip : Nat
  gateway_ip : Nat
  epoch : Nat
  clients : List (Nat × ClientInfo)
deriving DecidableEq, Repr

/-- NetworkInfo::new from src/core/entity/mod.rs. -/
def NetworkInfo.new (network_ip mask_ip gateway_ip : Nat) : NetworkInfo :=
  { network_ip := network_ip
    mask_ip := mask_ip
    gateway_ip := gateway_ip
    epoch := 0
    clients := [] }

/-- Protobuf message RegistrationRequest (fields per the spec wire list). -/
structure RegistrationRequest where
  token : String
  device_id : String
  name : String
  version : String
  virtual_ip : Nat
  client_secret : Bool
  allow_ip_change : Bool
  is_fast : Bool
deriving DecidableEq, Repr

/-- Protobuf message DeviceInfo. -/
structure DeviceInfo where
  virtual_ip : Nat
  name : String
  device_status : Nat
  client_secret : Bool
deriving DecidableEq, Repr

/-- Protobuf message RegistrationResponse. -/
structure RegistrationResponse where
  public_ip : Nat
  public_ipv6 : List Nat
  public_port : Nat
  virtual_ip : Nat
  virtual_netmask : Nat
  virtual_gateway : Nat
  epoch : Nat
  device_info_list : List DeviceInfo
deriving DecidableEq, Repr

/-- Default-constructed RegistrationResponse (RegistrationResponse::new). -/
def RegistrationResponse.empty : RegistrationResponse :=
  { public_ip := 0
    public_ipv6 := []
    public_port := 0
    virtual_ip := 0
    virtual_netmask := 0
    virtual_gateway := 0
    epoch := 0
    device_info_list := [] }

/-- Protobuf message DeviceList. -/
structure DeviceList where
  epoch : Nat
  device_info_list : List DeviceInfo
deriving DecidableEq, Repr

/-- Protobuf message HandshakeResponse. -/
structure HandshakeResponse where
  version : String
  public_key : List Nat
  secret : Bool
  key_finger : String
deriving DecidableEq, Repr

/-- Protobuf enum PunchNatType. -/
inductive PunchNatTypeM where
  | cone
  | symmetric
deriving DecidableEq, Repr

/-- Protobuf message ClientStatusInfo (the wire message, distinct from the
entity of the same name); p2p_list carries the next_ip of each entry. -/
structure ClientStatusInfoMsg where
  source : Nat
  p2p_list : List Nat
  up_stream : Nat
  down_stream : Nat
  nat_type : PunchNatTypeM
deriving DecidableEq, Repr

/-- Protobuf message SecretHandshakeRequest. -/
structure SecretHandshakeRequestM where
  key : List Nat
  token : String
deriving DecidableEq, Repr

/-- Protocol class of the envelope (crate::protocol::Protocol). -/
inductive ProtocolM where
  | Service
  | Control
  | IpTurn
  | OtherProtocol (n : Nat)
deriving DecidableEq, Repr

/-- Modelled from the spec: the class-scoped transport sub-protocols,
merged into one enumeration (the numeric opcodes are abstracted; the
dispatch in server.rs only compares enum variants). -/
inductive TransportM where
  | handshakeRequest
  | handshakeResponse
  | secretHandshakeRequest
  | secretHandshakeResponse
  | registrationRequest
  | registrationResponse
  | pollDeviceList
  | pushDeviceList
  | clientStatusInfo
  | ping
  | pong
  | addrRequest
  | addrResponse
  | ipv4
  | ipv4Broadcast
  | unknownTransport (n : Nat)
deriving DecidableEq, Repr

/-- Modelled from the spec: ICMP kind as used by the external packet crate
(EchoRequest, EchoReply and the rest). -/
inductive IcmpKindM where
  | echoRequest
  | echoReply
  | otherKind (n : Nat)
deriving DecidableEq, Repr

/-- Wire code of an ICMP kind (8 = echo request, 0 = echo reply). -/
def icmpKindCode : IcmpKindM → Nat
  | IcmpKindM.echoRequest => 8
  | IcmpKindM.echoReply => 0
  | IcmpKindM.otherKind n => n

/-- Modelled from the spec: the IPv4 payload protocol field. -/
inductive IpProtoM where
  | icmp
  | otherProto (n : Nat)
deriving DecidableEq, Repr

/-- Wire code of an IPv4 protocol (1 = ICMP). -/
def ipProtoCode : IpProtoM → Nat
  | IpProtoM.icmp => 1
  | IpProtoM.otherProto n => n

/-- One step of RFC1071 ones-complement folding, iterated twice (enough
for any bounded sum) and reduced to 16 bits. -/
def fold16 (n : Nat) : Nat :=
  let a := n % 65536 + n / 65536
  let b := a % 65536 + a / 65536
  b % 65536

/-- Ones-complement sum of a list of words. -/
def onesSum (l : List Nat) : Nat := fold16 (l.foldl (fun a b => a + b) 0)

/-- Modelled from the spec: IcmpPacket, as far as server.rs uses it
(kind, checksum, remaining body words). -/
structure IcmpPacketM where
  kind : IcmpKindM
  checksum : Nat
  body : List Nat
deriving DecidableEq, Repr

/-- Modelled from the spec: the recomputed ICMP checksum
(icmp_packet.update_checksum) over the packet content. -/
def icmpChecksum (kind : IcmpKindM) (body : List Nat) : Nat :=
  65535 - onesSum (icmpKindCode kind :: body)

/-- Payload of an IPv4 packet: either a parsed ICMP packet or raw words. -/
inductive IpPayloadM where
  | icmpPayload (p : IcmpPacketM)
  | rawPayload (l : List Nat)
deriving DecidableEq, Repr

/-- Modelled from the spec: IpV4Packet, as far as server.rs uses it. -/
structure Ipv4PacketM where
  protocol : IpProtoM
  source_ip : Nat
  destination_ip : Nat
  checksum : Nat
  header_rest : List Nat
  payload : IpPayloadM
deriving DecidableEq, Repr

/-- Modelled from the spec: the recomputed IPv4 header checksum
(ipv4.update_checksum) over the header content. -/
def ipv4HeaderChecksum (p : Ipv4PacketM) : Nat :=
  65535 - onesSum (ipProtoCode p.protocol :: p.source_ip :: p.destination_ip :: p.header_rest)

/-- Modelled from the spec: the nested NetPacket inside a BroadcastPacket,
as far as broadcast uses it (is_encrypt and the raw buffer). -/
structure InnerPacketM where
  encrypted : Bool
  buffer : List Nat
deriving DecidableEq, Repr

/-- Parsed view of an envelope payload.  Protobuf (de)serialization is an
external codec, so each structured body appears parsed; a request packet
whose payload does not parse as the expected message stands for a protobuf
decoding error. -/
inductive PayloadM where
  | bytes (l : List Nat)
  | registration (r : RegistrationRequest)
  | clientStatus (m : ClientStatusInfoMsg)
  | ipv4Payload (p : Ipv4PacketM)
  | broadcastBody (exclude : List Nat) (inner : InnerPacketM)
  | registrationResponseBody (r : RegistrationResponse)
  | handshakeResponseBody (h : HandshakeResponse)
  | secretHandshakeResponseBody
  | deviceListBody (d : DeviceList)
  | addrResponseBody (ip : Nat) (port : Nat)
  | emptyBody
deriving DecidableEq, Repr

/-- Modelled from the spec: the NetPacket envelope.  sealedWith is the
GCM key under which the payload is currently sealed (none = plaintext);
rsaBody is the RSA-decryptable body used by the secret handshake. -/
structure NetPacketM where
  protocol : ProtocolM
  transport_protocol : TransportM
  encrypted : Bool
  gateway : Bool
  source : Nat
  destination : Nat
  payload : PayloadM
  sealedWith : Option (List Nat)
  rsaBody : Option SecretHandshakeRequestM
deriving DecidableEq, Repr

/-- Raw byte view of a payload (NetPacket::payload for the branches that
read it untyped); non-byte variants have no raw view in the model. -/
def PayloadM.asBytes : PayloadM → List Nat
  | PayloadM.bytes l => l
  | _ => []

/-- Modelled from the spec: a zero-initialized encryptable reply packet
(NetPacket::new_encrypt) carrying the given payload. -/
def newEncryptPacket (proto : ProtocolM) (transport : TransportM) (p : PayloadM) : NetPacketM :=
  { protocol := proto
    transport_protocol := transport
    encrypted := false
    gateway := false
    source := 0
    destination := 0
    payload := p
    sealedWith := none
    rsaBody := none }

/-- Modelled from the spec: Aes256GcmCipher::decrypt_ipv4 succeeds exactly
when the packet is sealed under this session's key, yielding plaintext. -/
def decrypt_ipv4 (aes : AesM) (pkt : NetPacketM) : Except ErrorM NetPacketM :=
  if pkt.sealedWith = some aes.key then Except.ok { pkt with sealedWith := none }
  else Except.error (ErrorM.Other "decrypt")

/-- Server configuration (ConfigInfo), read-only at startup. -/
structure ConfigInfo where
  gateway : Nat
  netmask : Nat
  broadcast : Nat
  white_token : Option (List String)
deriving DecidableEq, Repr

/-- The handler with its configuration and optional RSA key
(ServerPacketHandler; the UDP socket handle is I/O and not modelled). -/
structure ServerPacketHandler where
  config : ConfigInfo
  rsa_cipher : Option RsaM
deriving DecidableEq, Repr

/-- The process-wide session caches (AppCache): four maps, with the group
directory holding plain NetworkInfo values (the Arc and RwLock collapse in
the sequential model).  TTL eviction is environment-driven and out of
scope. -/
structure ServerState where
  virtual_network : List (String × NetworkInfo)
  ip_session : List ((String × Nat) × SockAddrM)
  addr_session : List (SockAddrM × (String × Nat))
  cipher_session : List (SockAddrM × AesM)
deriving DecidableEq, Repr

/-- Modelled from the spec: AppCache::get_context, absent when there is no
address session; carries the group, the caller vip and the group's
NetworkInfo. -/
def getContext (st : ServerState) (addr : SockAddrM) : Option (String × Nat × NetworkInfo) :=
  match alGet st.addr_session addr with
  | none => none
  | some (g, vip) =>
      match alGet st.virtual_network g with
      | none => none
      | some ni => some (g, vip, ni)

/-- check_reg from server.rs: token, device_id and name must each have
length 1..=128. -/
def check_reg (request : RegistrationRequest) : Except ErrorM Unit :=
  if request.token.length = 0 ∨ request.token.length > 128 then
    Except.error (ErrorM.Other "group length error")
  else if request.device_id.length = 0 ∨ request.device_id.length > 128 then
    Except.error (ErrorM.Other "device_id length error")
  else if request.name.length = 0 ∨ request.name.length > 128 then
    Except.error (ErrorM.Other "name length error")
  else Except.ok ()

/-- clients_info from server.rs: the device roster, excluding the entry
whose virtual_ip equals current_ip. -/
def clients_info (clients : List (Nat × ClientInfo)) (current_ip : Nat) : List DeviceInfo :=
  (clients.filter (fun p => p.2.virtual_ip ≠ current_ip)).map
    (fun p =>
      { virtual_ip := p.2.virtual_ip
        name := p.2.name
        device_status := if p.2.online then 0 else 1
        client_secret := p.2.client_secret })

/-- Step 2 of the allocator in register (server.rs lines 306-326): the
requested virtual_ip after validation; ok 0 means the server chooses. -/
def effectiveVip (config : ConfigInfo) (ni : NetworkInfo) (request : RegistrationRequest) :
    Except ErrorM Nat :=
  let lo := (config.gateway &&& config.netmask) + 1
  let hi := config.gateway ||| u32not config.netmask
  if request.virtual_ip ≠ 0 then
    if config.gateway = request.virtual_ip ∨ config.broadcast = request.virtual_ip ∨
        ¬(lo ≤ request.virtual_ip ∧ request.virtual_ip < hi) then
      Except.error ErrorM.InvalidIp
    else
      match alGet ni.clients request.virtual_ip with
      | some info =>
          if info.device_id ≠ request.device_id then
            if ¬request.allow_ip_change then Except.error ErrorM.IpAlreadyExists
            else Except.ok 0
          else Except.ok request.virtual_ip
      | none => Except.ok request.virtual_ip
  else Except.ok 0

/-- The device-stickiness scan in register (server.rs lines 327-331): the
loop overwrites virtual_ip with each client whose device_id matches, so
the last match in iteration order wins. -/
def stickyVip (clients : List (Nat × ClientInfo)) (device_id : String) (vip : Nat) : Nat :=
  clients.foldl (fun acc p => if p.2.device_id = device_id then p.2.virtual_ip else acc) vip

/-- The ascending free-ip scan in register (server.rs lines 332-343):
walk len addresses from start, skip the gateway, return the first one that
is not a client key; 0 when none is found. -/
def scanIp (gateway_ip : Nat) (clients : List (Nat × ClientInfo)) (start : Nat) :
    Nat → Nat
  | 0 => 0
  | Nat.succ n =>
      if start = gateway_ip then scanIp gateway_ip clients (start + 1) n
      else if alContains clients start then scanIp gateway_ip clients (start + 1) n
      else start

/-- The field updates applied to the chosen client slot in register
(server.rs lines 348-358). -/
def applyReg (request : RegistrationRequest) (addr : SockAddrM) (tcp_sender : Option Nat)
    (vip : Nat) (info : ClientInfo) : ClientInfo :=
  { info with
    name := request.name
    device_id := request.device_id
    client_secret := request.client_secret
    address := addr
    online := true
    virtual_ip := vip
    tcp_sender := tcp_sender }

/-- The portion of register that runs under the group's write lock
(server.rs lines 299-362): allocate a vip, upsert the client slot and
bump the epoch.  Returns the updated NetworkInfo and the chosen vip. -/
def registerGroupStep (config : ConfigInfo) (ni : NetworkInfo) (request : RegistrationRequest)
    (addr : SockAddrM) (tcp_sender : Option Nat) : Except ErrorM (NetworkInfo × Nat) :=
  let lo := (config.gateway &&& config.netmask) + 1
  let hi := config.gateway ||| u32not config.netmask
  match effectiveVip config ni request with
  | Except.error e => Except.error e
  | Except.ok v1 =>
      let v2 := stickyVip ni.clients request.device_id v1
      let v3 := if v2 = 0 then scanIp ni.gateway_ip ni.clients lo (hi - lo) else v2
      if v3 = 0 then Except.error ErrorM.AddressExhausted
      else
        let clients' := alUpsert ni.clients v3 ClientInfo.default
          (applyReg request addr tcp_sender v3)
        Except.ok ({ ni with clients := clients', epoch := ni.epoch + 1 }, v3)

/-- The group NetworkInfo register works on: the existing entry, or the
freshly created one (the factory of optionally_get_with in server.rs
lines 288-298). -/
def groupOf (config : ConfigInfo) (st : ServerState) (group_id : String) : NetworkInfo :=
  (alGet st.virtual_network group_id).getD
    (NetworkInfo.new (config.gateway &&& config.netmask) config.netmask config.gateway)

/-- The group directory after the get-or-create of optionally_get_with
(server.rs lines 288-298): unchanged when the group exists, otherwise
extended with a fresh NetworkInfo built from the configuration. -/
def vnAfterCreate (h : ServerPacketHandler) (st : ServerState) (group_id : String) :
    List (String × NetworkInfo) :=
  if alContains st.virtual_network group_id then st.virtual_network
  else st.virtual_network ++
    [(group_id, NetworkInfo.new (h.config.gateway &&& h.config.netmask)
      h.config.netmask h.config.gateway)]

/-- The RegistrationResponse composed on success (server.rs lines 265-287
and 359-370): reflected public address, fixed gateway and netmask, the new
epoch truncated to u32, the roster excluding the caller, and the chosen
virtual ip. -/
def registerResponse (h : ServerPacketHandler) (addr : SockAddrM) (ni' : NetworkInfo)
    (virtual_ip : Nat) : RegistrationResponse :=
  { RegistrationResponse.empty with
    public_port := addr.port
    public_ip :=
      match addr.ip with
      | IpAddrM.v4 ip => ip
      | IpAddrM.v6 octets => (toIpv4Mapped octets).getD 0
    public_ipv6 :=
      match addr.ip with
      | IpAddrM.v4 _ => []
      | IpAddrM.v6 octets =>
          match toIpv4Mapped octets with
          | some _ => []
          | none => octets
    virtual_netmask := h.config.netmask
    virtual_gateway := h.config.gateway
    epoch := u32trunc ni'.epoch
    device_info_list := clients_info ni'.clients virtual_ip
    virtual_ip := virtual_ip }

/-- The server state committed on success (server.rs lines 362-369): the
mutated group written back and both sessions inserted. -/
def registerCommit (h : ServerPacketHandler) (st : ServerState) (group_id : String)
    (addr : SockAddrM) (ni' : NetworkInfo) (virtual_ip : Nat) : ServerState :=
  { st with
    virtual_network := alSet (vnAfterCreate h st group_id) group_id ni'
    ip_session := alSet st.ip_session (group_id, virtual_ip) addr
    addr_session := alSet st.addr_session addr (group_id, virtual_ip) }

/-- The body of register after the length and allowlist guards
(server.rs lines 265-377): get-or-create the group, run the in-lock
allocation step, then on success build the response, write back the group
and insert both sessions. -/
def registerCore (h : ServerPacketHandler) (st : ServerState) (request : RegistrationRequest)
    (addr : SockAddrM) (tcp_sender : Option Nat) :
    Except ErrorM (Option NetPacketM) × ServerState :=
  match registerGroupStep h.config (groupOf h.config st request.token) request addr tcp_sender with
  | Except.error e =>
      (Except.error e, { st with virtual_network := vnAfterCreate h st request.token })
  | Except.ok (ni', virtual_ip) =>
      (Except.ok (some (newEncryptPacket ProtocolM.Service TransportM.registrationResponse
        (PayloadM.registrationResponseBody (registerResponse h addr ni' virtual_ip)))),
       registerCommit h st request.token addr ni' virtual_ip)

/-- register from server.rs (lines 233-378): validate field lengths and
the optional token allowlist, then run registerCore.  Returns the outcome
together with the resulting server state; on an allocator failure the
state still reflects the get-or-create of the group entry performed by
optionally_get_with before the allocator runs. -/
def register (h : ServerPacketHandler) (st : ServerState) (request : RegistrationRequest)
    (addr : SockAddrM) (tcp_sender : Option Nat) :
    Except ErrorM (Option NetPacketM) × ServerState :=
  match check_reg request with
  | Except.error e => (Except.error e, st)
  | Except.ok _ =>
    let tokenOk : Bool :=
      match h.config.white_token with
      | some white_token => decide (request.token ∈ white_token)
      | none => true
    if ¬tokenOk then
      (Except.error ErrorM.TokenError, st)
    else
      registerCore h st request addr tcp_sender

/-- The server version string (env CARGO_PKG_VERSION; external constant). -/
def serverVersion : String := "1.2.16"

/-- handshake from server.rs (lines 395-414): advertise the version and,
when RSA is configured, the public key, secret flag and fingerprint. -/
def handshake (h : ServerPacketHandler) (_net_packet : NetPacketM) (_addr : SockAddrM) :
    Except ErrorM (Option NetPacketM) :=
  let res : HandshakeResponse :=
    match h.rsa_cipher with
    | some rsp_cipher =>
        { version := serverVersion
          public_key := rsp_cipher.public_key
          secret := true
          key_finger := rsp_cipher.key_finger }
    | none =>
        { version := serverVersion, public_key := [], secret := false, key_finger := "" }
  Except.ok (some (newEncryptPacket ProtocolM.Service TransportM.handshakeResponse
    (PayloadM.handshakeResponseBody res)))

/-- secret_handshake from server.rs (lines 415-439): RSA-decrypt the body,
build an AES-256-GCM session keyed by the 32-byte key and the token finger,
bind it to the source address, reply with an empty SecretHandshakeResponse. -/
def secret_handshake (h : ServerPacketHandler) (st : ServerState) (net_packet : NetPacketM)
    (addr : SockAddrM) : Except ErrorM (Option NetPacketM) × ServerState :=
  match h.rsa_cipher with
  | some _rsp_cipher =>
      match net_packet.rsaBody with
      | some sync_secret =>
          if sync_secret.key.length = 32 then
            let c : AesM := { key := sync_secret.key, finger := sync_secret.token }
            let st' := { st with cipher_session := alSet st.cipher_session addr c }
            (Except.ok (some (newEncryptPacket ProtocolM.Service
              TransportM.secretHandshakeResponse PayloadM.secretHandshakeResponseBody)), st')
          else (Except.error (ErrorM.Other "key err"), st)
      | none => (Except.error (ErrorM.Other "rsa decrypt"), st)
  | none => (Except.error (ErrorM.Other "no encryption"), st)

/-- control_addr_request from server.rs (lines 211-229): reflect the
observed transport address; a pure IPv6 source gets no reply. -/
def control_addr_request (addr : SockAddrM) : Except ErrorM (Option NetPacketM) :=
  let ipv4 : Option Nat :=
    match addr.ip with
    | IpAddrM.v4 ip => some ip
    | IpAddrM.v6 octets => toIpv4Mapped octets
  match ipv4 with
  | none => Except.ok none
  | some ip =>
      Except.ok (some (newEncryptPacket ProtocolM.Control TransportM.addrResponse
        (PayloadM.addrResponseBody ip addr.port)))

/-- Modelled from the spec: set_payload into the fixed four-byte pong
buffer, whose length check demands the copied bytes fit the buffer exactly
(error kind: inconsistent length). -/
def setPongPayload (pingPayload : List Nat) : Except ErrorM (List Nat) :=
  if pingPayload.length = 4 then Except.ok pingPayload
  else Except.error (ErrorM.Other "InvalidPacket")

/-- Modelled from the spec: PongPacket::set_epoch writes the u16 epoch
into the last two bytes of the four-byte pong body, big-endian. -/
def setPongEpoch (body : List Nat) (epoch : Nat) : List Nat :=
  body.take 2 ++ [u16trunc epoch / 256, u16trunc epoch % 256]

/-- control_ping from server.rs (lines 195-210): echo the ping payload
into a four-byte pong body and stamp the group epoch truncated to u16. -/
def control_ping (net_packet : NetPacketM) (ni : NetworkInfo) :
    Except ErrorM (Option NetPacketM) :=
  match setPongPayload net_packet.payload.asBytes with
  | Except.error e => Except.error e
  | Except.ok body =>
      let epoch := ni.epoch
      Except.ok (some (newEncryptPacket ProtocolM.Control TransportM.pong
        (PayloadM.bytes (setPongEpoch body epoch))))

/-- poll_device_list from server.rs (lines 443-463): snapshot the group's
epoch (truncated to u32) and the roster excluding the caller. -/
def poll_device_list (ni : NetworkInfo) (virtual_ip : Nat) :
    Except ErrorM (Option NetPacketM) :=
  let device_list : DeviceList :=
    { epoch := u32trunc ni.epoch
      device_info_list := clients_info ni.clients virtual_ip }
  Except.ok (some (newEncryptPacket ProtocolM.Service TransportM.pushDeviceList
    (PayloadM.deviceListBody device_list)))

/-- up_client_status_info from server.rs (lines 464-488): stamp the
reported status on the client slot keyed by the message's source field;
a miss drops the update.  now is the abstract Local::now timestamp. -/
def up_client_status_info (ni : NetworkInfo) (client_status_info : ClientStatusInfoMsg)
    (now : Nat) : NetworkInfo :=
  let status_info : ClientStatusInfo :=
    { p2p_list := client_status_info.p2p_list
      up_stream := client_status_info.up_stream
      down_stream := client_status_info.down_stream
      is_cone := decide (client_status_info.nat_type = PunchNatTypeM.cone)
      update_time := now }
  { ni with clients := (alModify ni.clients client_status_info.source
      (fun v => { v with client_status := some status_info })) }

/-- A delivery performed by broadcast: a non-blocking push on a TCP sink
or a non-blocking UDP send; the outcome of the try-send is discarded by
the source, so it does not appear here. -/
inductive SendActionM where
  | tcpSend (sink : Nat) (buf : List Nat)
  | udpSend (addr : SockAddrM) (buf : List Nat)
deriving DecidableEq, Repr

/-- The per-client delivery decisions of broadcast (server.rs lines
506-527), in clients iteration order. -/
def broadcastActions (clients : List (Nat × ClientInfo)) (client_secret : Bool)
    (buf : List Nat) (exclude : List Nat) : List (Nat × SendActionM) :=
  clients.filterMap (fun p =>
    if p.2.online ∧ p.1 ∉ exclude ∧ p.2.client_secret = client_secret then
      some (p.1,
        match p.2.tcp_sender with
        | some sender => SendActionM.tcpSend sender buf
        | none => SendActionM.udpSend p.2.address buf)
    else none)

/-- broadcast from server.rs (lines 506-527): deliver the inner packet to
every online, non-excluded client of the matching secrecy cohort; the
io::Result it returns is always Ok. -/
def broadcast (ni : NetworkInfo) (net_packet : InnerPacketM) (exclude : List Nat) :
    Except ErrorM Unit × List (Nat × SendActionM) :=
  (Except.ok (), broadcastActions ni.clients net_packet.encrypted net_packet.buffer exclude)

/-- Replace a group's NetworkInfo in the directory (writing through the
shared handle held by a Context). -/
def updateGroup (st : ServerState) (group : String) (f : NetworkInfo → NetworkInfo) :
    ServerState :=
  { st with virtual_network := alModify st.virtual_network group f }

/-- The IpTurn Ipv4 branch of handle (server.rs lines 128-150): when the
payload is an ICMP echo request, flip it into an echo reply sourced from
the envelope destination, recompute both checksums, swap the envelope
addresses and set the gateway flag; any other Ipv4 packet falls through to
the Unknown error. -/
def handleIpv4 (net_packet : NetPacketM) : Except ErrorM (Option NetPacketM) :=
  let destination := net_packet.destination
  let source := net_packet.source
  match net_packet.payload with
  | PayloadM.ipv4Payload ipv4 =>
      match ipv4.protocol with
      | IpProtoM.icmp =>
          match ipv4.payload with
          | IpPayloadM.icmpPayload icmp_packet =>
              if icmp_packet.kind = IcmpKindM.echoRequest then
                let icmp1 := { icmp_packet with kind := IcmpKindM.echoReply }
                let icmp2 := { icmp1 with checksum := icmpChecksum icmp1.kind icmp1.body }
                let ipv41 := { ipv4 with
                  payload := IpPayloadM.icmpPayload icmp2
                  source_ip := destination
                  destination_ip := source }
                let ipv42 := { ipv41 with checksum := ipv4HeaderChecksum ipv41 }
                Except.ok (some { net_packet with
                  source := destination
                  destination := source
                  gateway := true
                  payload := PayloadM.ipv4Payload ipv42 })
              else Except.error (ErrorM.Other "Unknown")
          | IpPayloadM.rawPayload _ => Except.error (ErrorM.Other "parse")
      | IpProtoM.otherProto _ => Except.error (ErrorM.Other "Unknown")
  | _ => Except.error (ErrorM.Other "parse")

/-- handle from server.rs (lines 51-164): handshake bypass, decryption
gate, no-context requests, then the context-required dispatch.  Returns
the reply (if any) and the resulting state; now is the abstract clock for
status uploads.  Broadcast deliveries are side effects through the UDP
socket and TCP sinks and do not appear in the state. -/
def handle (h : ServerPacketHandler) (st : ServerState) (net_packet : NetPacketM)
    (addr : SockAddrM) (tcp_sender : Option Nat) (now : Nat) :
    Except ErrorM (Option NetPacketM) × ServerState :=
  if net_packet.protocol = ProtocolM.Service ∧
      net_packet.transport_protocol = TransportM.handshakeRequest then
    (handshake h net_packet addr, st)
  else if net_packet.protocol = ProtocolM.Service ∧
      net_packet.transport_protocol = TransportM.secretHandshakeRequest then
    secret_handshake h st net_packet addr
  else
    let gate : Except ErrorM NetPacketM :=
      if net_packet.encrypted then
        match alGet st.cipher_session addr with
        | some aes => decrypt_ipv4 aes net_packet
        | none => Except.error ErrorM.NoKey
      else Except.ok net_packet
    match gate with
    | Except.error e => (Except.error e, st)
    | Except.ok net_packet =>
        if net_packet.protocol = ProtocolM.Service ∧
            net_packet.transport_protocol = TransportM.registrationRequest then
          match net_packet.payload with
          | PayloadM.registration request => register h st request addr tcp_sender
          | _ => (Except.error (ErrorM.Other "parse"), st)
        else if net_packet.protocol = ProtocolM.Control ∧
            net_packet.transport_protocol = TransportM.addrRequest then
          (control_addr_request addr, st)
        else
          match getContext st addr with
          | none => (Except.error ErrorM.Disconnect, st)
          | some (group, virtual_ip, ni) =>
              match net_packet.protocol with
              | ProtocolM.Service =>
                  match net_packet.transport_protocol with
                  | TransportM.pollDeviceList => (poll_device_list ni virtual_ip, st)
                  | TransportM.clientStatusInfo =>
                      match net_packet.payload with
                      | PayloadM.clientStatus client_status_info =>
                          (Except.ok none,
                            updateGroup st group
                              (fun g => up_client_status_info g client_status_info now))
                      | _ => (Except.error (ErrorM.Other "parse"), st)
                  | _ => (Except.error (ErrorM.Other "Unknown"), st)
              | ProtocolM.Control =>
                  match net_packet.transport_protocol with
                  | TransportM.ping => (control_ping net_packet ni, st)
                  | _ => (Except.error (ErrorM.Other "Unknown"), st)
              | ProtocolM.IpTurn =>
                  match net_packet.transport_protocol with
                  | TransportM.ipv4Broadcast =>
                      match net_packet.payload with
                      | PayloadM.broadcastBody _exclude _inner =>
                          (Except.error (ErrorM.Other "Unknown"), st)
                      | _ => (Except.error (ErrorM.Other "parse"), st)
                  | TransportM.ipv4 => (handleIpv4 net_packet, st)
                  | _ => (Except.error (ErrorM.Other "Unknown"), st)
              | ProtocolM.OtherProtocol _ => (Except.error (ErrorM.Other "Unknown"), st)

/-- The subnet broadcast address of a group: network | complement of mask. -/
def subnetBroadcast (ni : NetworkInfo) : Nat := ni.network_ip ||| u32not ni.mask_ip

/-- The directory invariant of claim C3 on one group: client keys are
pairwise distinct, each key is in the usable range, no key is the gateway
or the broadcast, and every client's virtual_ip equals its key. -/
def goodNI (ni : NetworkInfo) : Prop :=
  (ni.clients.map Prod.fst).Nodup ∧
  ∀ p ∈ ni.clients,
    p.2.virtual_ip = p.1 ∧
    ni.network_ip + 1 ≤ p.1 ∧
    p.1 < subnetBroadcast ni ∧
    p.1 ≠ ni.gateway_ip ∧
    p.1 ≠ subnetBroadcast ni

/-- The NetworkInfo states of one group reachable from its creation by the
factory of optionally_get_with, through successful registrations and
client-status uploads. -/
inductive ReachNI (config : ConfigInfo) : NetworkInfo → Prop where
  | init : ReachNI config
      (NetworkInfo.new (config.gateway &&& config.netmask) config.netmask config.gateway)
  | reg (ni : NetworkInfo) (request : RegistrationRequest) (addr : SockAddrM)
      (tcp_sender : Option Nat) (ni' : NetworkInfo) (vip : Nat) :
      ReachNI config ni →
      registerGroupStep config ni request addr tcp_sender = Except.ok (ni', vip) →
      ReachNI config ni'
  | status (ni : NetworkInfo) (msg : ClientStatusInfoMsg) (now : Nat) :
      ReachNI config ni →
      ReachNI config (up_client_status_info ni msg now)

/-- Auxiliary inductive invariant: the group's CIDR fields agree with the
configuration it was created from, and the directory invariant holds. -/
def invNI (config : ConfigInfo) (ni : NetworkInfo) : Prop :=
  ni.network_ip = config.gateway &&& config.netmask ∧
  ni.mask_ip = config.netmask ∧
  ni.gateway_ip = config.gateway ∧
  goodNI ni

/-- The epoch of a group as stored in the directory (0 when absent). -/
def epochOf (st : ServerState) (group : String) : Nat :=
  match alGet st.virtual_network group with
  | some ni => ni.epoch
  | none => 0

/-- The clients of a group as stored in the directory (empty when absent). -/
def clientsOf (st : ServerState) (group : String) : List (Nat × ClientInfo) :=
  match alGet st.virtual_network group with
  | some ni => ni.clients
  | none => []

/-- A free address for the allocator scan: inside the half-open usable
range, not the group's gateway, not a client key. -/
def freeIp (config : ConfigInfo) (ni : NetworkInfo) (ip : Nat) : Prop :=
  (config.gateway &&& config.netmask) + 1 ≤ ip ∧
  ip < (config.gateway ||| u32not config.netmask) ∧
  ip ≠ ni.gateway_ip ∧
  alContains ni.clients ip = false

theorem alGet_isSome_iff {α β : Type} [DecidableEq α] (l : List (α × β)) (k : α) :
    (alGet l k).isSome = true ↔ k ∈ l.map Prod.fst := by
  induction l with
  | nil => simp [alGet]
  | cons p rest ih =>
      obtain ⟨k', v⟩ := p
      by_cases hk : k' = k
      · subst hk; simp [alGet]
      · simp [alGet, hk, ih, Ne.symm hk]

theorem alContains_iff {α β : Type} [DecidableEq α] (l : List (α × β)) (k : α) :
    alContains l k = true ↔ k ∈ l.map Prod.fst := by
  simp [alContains, alGet_isSome_iff]

theorem alGet_mem {α β : Type} [DecidableEq α] {l : List (α × β)} {k : α} {v : β}
    (h : alGet l k = some v) : (k, v) ∈ l := by
  induction l with
  | nil => simp [alGet] at h
  | cons p rest ih =>
      obtain ⟨k', v'⟩ := p
      by_cases hk : k' = k
      · subst hk
        simp [alGet] at h
        simp [h]
      · simp [alGet, hk] at h
        exact List.mem_cons_of_mem _ (ih h)

theorem alGet_alSet_self {α β : Type} [DecidableEq α] (l : List (α × β)) (k : α) (v : β) :
    alGet (alSet l k v) k = some v := by
  induction l with
  | nil => simp [alSet, alGet]
  | cons p rest ih =>
      obtain ⟨k', v'⟩ := p
      by_cases hk : k' = k
      · subst hk; simp [alSet, alGet]
      · simp [alSet, alGet, hk, ih]

theorem alGet_alSet_ne {α β : Type} [DecidableEq α] (l : List (α × β)) (k : α) (v : β)
    (k' : α) (h : k' ≠ k) : alGet (alSet l k v) k' = alGet l k' := by
  have hne : ¬k = k' := fun hh => h hh.symm
  induction l with
  | nil => simp [alSet, alGet, hne]
  | cons q rest ih =>
      obtain ⟨k'', v'⟩ := q
      by_cases h1 : k'' = k
      · subst h1
        simp [alSet, alGet, hne]
      · by_cases h2 : k'' = k'
        · subst h2
          simp [alSet, alGet, h1]
        · simp [alSet, alGet, h1, h2, ih]

theorem alGet_alModify_self {α β : Type} [DecidableEq α] (l : List (α × β)) (k : α)
    (f : β → β) : alGet (alModify l k f) k = (alGet l k).map f := by
  induction l with
  | nil => simp [alModify, alGet]
  | cons p rest ih =>
      obtain ⟨k', v'⟩ := p
      by_cases hk : k' = k
      · subst hk; simp [alModify, alGet]
      · simp [alModify, alGet, hk, ih]

theorem alGet_alModify_ne {α β : Type} [DecidableEq α] (l : List (α × β)) (k : α)
    (f : β → β) (k' : α) (h : k' ≠ k) : alGet (alModify l k f) k' = alGet l k' := by
  have hne : ¬k = k' := fun hh => h hh.symm
  induction l with
  | nil => simp [alModify]
  | cons q rest ih =>
      obtain ⟨k'', v'⟩ := q
      by_cases h1 : k'' = k
      · subst h1
        simp [alModify, alGet, hne]
      · by_cases h2 : k'' = k'
        · subst h2
          simp [alModify, alGet, h1]
        · simp [alModify, alGet, h1, h2, ih]

theorem alModify_map_fst {α β : Type} [DecidableEq α] (l : List (α × β)) (k : α)
    (f : β → β) : (alModify l k f).map Prod.fst = l.map Prod.fst := by
  induction l with
  | nil => simp [alModify]
  | cons p rest ih =>
      obtain ⟨k', v'⟩ := p
      by_cases hk : k' = k
      · subst hk; simp [alModify]
      · simp [alModify, hk, ih]

theorem mem_alModify {α β : Type} [DecidableEq α] {l : List (α × β)} {k : α} {f : β → β}
    {p : α × β} (h : p ∈ alModify l k f) :
    ∃ v, (p.1, v) ∈ l ∧ (p.2 = v ∨ (p.1 = k ∧ p.2 = f v)) := by
  induction l with
  | nil => simp [alModify] at h
  | cons q rest ih =>
      obtain ⟨k', v'⟩ := q
      by_cases hk : k' = k
      · subst hk
        have hEq : alModify ((k', v') :: rest) k' f = (k', f v') :: rest := by
          simp [alModify]
        rw [hEq] at h
        rcases List.mem_cons.mp h with h1 | h2
        · subst h1
          exact ⟨v', List.mem_cons_self _ _, Or.inr ⟨rfl, rfl⟩⟩
        · exact ⟨p.2, List.mem_cons_of_mem _ h2, Or.inl rfl⟩
      · have hEq : alModify ((k', v') :: rest) k f = (k', v') :: alModify rest k f := by
          simp [alModify, hk]
        rw [hEq] at h
        rcases List.mem_cons.mp h with h1 | h2
        · subst h1
          exact ⟨v', List.mem_cons_self _ _, Or.inl rfl⟩
        · obtain ⟨v, hv, hcase⟩ := ih h2
          exact ⟨v, List.mem_cons_of_mem _ hv, hcase⟩

theorem alGet_append {α β : Type} [DecidableEq α] (l1 l2 : List (α × β)) (k : α) :
    alGet (l1 ++ l2) k = match alGet l1 k with
      | some v => some v
      | none => alGet l2 k := by
  induction l1 with
  | nil => simp [alGet]
  | cons p rest ih =>
      obtain ⟨k', v'⟩ := p
      by_cases hk : k' = k
      · subst hk; simp [alGet]
      · simp [alGet, hk, ih]

theorem stickyVip_no_match {clients : List (Nat × ClientInfo)} {d : String}
    (h : ∀ p ∈ clients, p.2.device_id ≠ d) (init : Nat) :
    stickyVip clients d init = init := by
  induction clients generalizing init with
  | nil => rfl
  | cons q rest ih =>
      have hq : q.2.device_id ≠ d := h q (List.mem_cons_self _ _)
      have hrest : ∀ p ∈ rest, p.2.device_id ≠ d :=
        fun p hp => h p (List.mem_cons_of_mem _ hp)
      simp only [stickyVip, List.foldl_cons, if_neg hq]
      exact ih hrest init

theorem stickyVip_cases (clients : List (Nat × ClientInfo)) (d : String) (init : Nat) :
    stickyVip clients d init = init ∨
    ∃ p ∈ clients, p.2.device_id = d ∧ stickyVip clients d init = p.2.virtual_ip := by
  induction clients generalizing init with
  | nil => exact Or.inl rfl
  | cons q rest ih =>
      by_cases hq : q.2.device_id = d
      · simp only [stickyVip, List.foldl_cons, if_pos hq]
        rcases ih q.2.virtual_ip with h1 | ⟨p, hp, hd, hv⟩
        · exact Or.inr ⟨q, List.mem_cons_self _ _, hq, h1⟩
        · exact Or.inr ⟨p, List.mem_cons_of_mem _ hp, hd, hv⟩
      · simp only [stickyVip, List.foldl_cons, if_neg hq]
        rcases ih init with h1 | ⟨p, hp, hd, hv⟩
        · exact Or.inl h1
        · exact Or.inr ⟨p, List.mem_cons_of_mem _ hp, hd, hv⟩

theorem stickyVip_all_eq {clients : List (Nat × ClientInfo)} {d : String} {v : Nat}
    (hall : ∀ p ∈ clients, p.2.device_id = d → p.2.virtual_ip = v)
    (hex : ∃ p ∈ clients, p.2.device_id = d) (init : Nat) :
    stickyVip clients d init = v := by
  induction clients generalizing init with
  | nil => obtain ⟨p, hp, _⟩ := hex; exact absurd hp (List.not_mem_nil p)
  | cons q rest ih =>
      have hallr : ∀ p ∈ rest, p.2.device_id = d → p.2.virtual_ip = v :=
        fun p hp => hall p (List.mem_cons_of_mem _ hp)
      by_cases hq : q.2.device_id = d
      · have hqv : q.2.virtual_ip = v := hall q (List.mem_cons_self _ _) hq
        simp only [stickyVip, List.foldl_cons, if_pos hq]
        by_cases hex2 : ∃ p ∈ rest, p.2.device_id = d
        · exact ih hallr hex2 q.2.virtual_ip
        · have : ∀ p ∈ rest, p.2.device_id ≠ d := by
            intro p hp hd
            exact hex2 ⟨p, hp, hd⟩
          have hnm := stickyVip_no_match this q.2.virtual_ip
          simp only [stickyVip] at hnm
          rw [hnm]
          exact hqv
      · obtain ⟨p, hp, hd⟩ := hex
        rcases List.mem_cons.mp hp with h1 | h2
        · subst h1; exact absurd hd hq
        · simp only [stickyVip, List.foldl_cons, if_neg hq]
          exact ih hallr ⟨p, h2, hd⟩ init

theorem scanIp_spec (gateway_ip : Nat) (clients : List (Nat × ClientInfo)) :
    ∀ (len start : Nat), 0 < start →
    (scanIp gateway_ip clients start len = 0 →
      ∀ ip, start ≤ ip → ip < start + len → ip = gateway_ip ∨ alContains clients ip = true) ∧
    (scanIp gateway_ip clients start len ≠ 0 →
      start ≤ scanIp gateway_ip clients start len ∧
      scanIp gateway_ip clients start len < start + len ∧
      scanIp gateway_ip clients start len ≠ gateway_ip ∧
      alContains clients (scanIp gateway_ip clients start len) = false ∧
      ∀ ip, start ≤ ip → ip < scanIp gateway_ip clients start len →
        ip = gateway_ip ∨ alContains clients ip = true) := by
  intro len
  induction len with
  | zero =>
      intro start hstart
      constructor
      · intro _ ip h1 h2
        omega
      · intro hne
        exact absurd rfl hne
  | succ n ih =>
      intro start hstart
      by_cases hgw : start = gateway_ip
      · have hrec := ih (start + 1) (by omega)
        simp only [scanIp, if_pos hgw]
        constructor
        · intro h0 ip hip1 hip2
          by_cases hip : ip = start
          · exact Or.inl (hip.trans hgw)
          · exact hrec.1 h0 ip (by omega) (by omega)
        · intro hne
          obtain ⟨ha, hb, hc, hd, he⟩ := hrec.2 hne
          refine ⟨by omega, by omega, hc, hd, ?_⟩
          intro ip hip1 hip2
          by_cases hip : ip = start
          · exact Or.inl (hip.trans hgw)
          · exact he ip (by omega) hip2
      · by_cases hcon : alContains clients start = true
        · have hrec := ih (start + 1) (by omega)
          simp only [scanIp, if_neg hgw, if_pos hcon]
          constructor
          · intro h0 ip hip1 hip2
            by_cases hip : ip = start
            · exact Or.inr (hip ▸ hcon)
            · exact hrec.1 h0 ip (by omega) (by omega)
          · intro hne
            obtain ⟨ha, hb, hc, hd, he⟩ := hrec.2 hne
            refine ⟨by omega, by omega, hc, hd, ?_⟩
            intro ip hip1 hip2
            by_cases hip : ip = start
            · exact Or.inr (hip ▸ hcon)
            · exact he ip (by omega) hip2
        · simp only [scanIp, if_neg hgw, if_neg hcon]
          constructor
          · intro h0
            omega
          · intro _
            refine ⟨le_refl _, by omega, hgw, ?_, ?_⟩
            · simpa using hcon
            · intro ip hip1 hip2
              omega

theorem effectiveVip_ok_nonzero {config : ConfigInfo} {ni : NetworkInfo}
    {request : RegistrationRequest} {v : Nat}
    (h : effectiveVip config ni request = Except.ok v) (hv : v ≠ 0) :
    (config.gateway &&& config.netmask) + 1 ≤ v ∧
    v < (config.gateway ||| u32not config.netmask) ∧
    config.gateway ≠ v ∧ config.broadcast ≠ v := by
  unfold effectiveVip at h
  by_cases hreq : request.virtual_ip ≠ 0
  · simp only [if_pos hreq] at h
    by_cases hbad : config.gateway = request.virtual_ip ∨
        config.broadcast = request.virtual_ip ∨
        ¬((config.gateway &&& config.netmask) + 1 ≤ request.virtual_ip ∧
          request.virtual_ip < (config.gateway ||| u32not config.netmask))
    · simp only [if_pos hbad] at h
      exact absurd h (by simp)
    · simp only [if_neg hbad] at h
      push_neg at hbad
      obtain ⟨hg, hb, hrange⟩ := hbad
      match hget : alGet ni.clients request.virtual_ip with
      | some info =>
          rw [hget] at h
          by_cases hdev : info.device_id ≠ request.device_id
          · simp only [if_pos hdev] at h
            by_cases hchg : ¬request.allow_ip_change
            · simp only [if_pos hchg] at h
              exact absurd h (by simp)
            · simp only [if_neg hchg] at h
              have : v = 0 := by
                have := h
                simp at this
                omega
              exact absurd this hv
          · simp only [if_neg hdev] at h
            have hvr : v = request.virtual_ip := by
              have := h
              simp at this
              omega
            subst hvr
            exact ⟨hrange.1, hrange.2, hg, hb⟩
      | none =>
          rw [hget] at h
          have hvr : v = request.virtual_ip := by
            have := h
            simp at this
            omega
          subst hvr
          exact ⟨hrange.1, hrange.2, hg, hb⟩
  · simp only [if_neg hreq] at h
    have : v = 0 := by
      have := h
      simp at this
      omega
    exact absurd this hv

theorem mem_alUpsert {α β : Type} [DecidableEq α] {l : List (α × β)} {key : α} {dflt : β}
    {f : β → β} {p : α × β} (h : p ∈ alUpsert l key dflt f) :
    (∃ v, (p.1, v) ∈ l ∧ (p.2 = v ∨ (p.1 = key ∧ p.2 = f v))) ∨
    (p = (key, f dflt) ∧ alContains l key = false) := by
  unfold alUpsert at h
  by_cases hc : alContains l key = true
  · rw [if_pos hc] at h
    exact Or.inl (mem_alModify h)
  · rw [if_neg hc] at h
    rcases List.mem_append.mp h with h1 | h2
    · exact Or.inl ⟨p.2, h1, Or.inl rfl⟩
    · have : p = (key, f dflt) := by simpa using h2
      exact Or.inr ⟨this, by simpa using hc⟩

theorem alUpsert_nodup {α β : Type} [DecidableEq α] {l : List (α × β)} {key : α}
    {dflt : β} {f : β → β} (h : (l.map Prod.fst).Nodup) :
    ((alUpsert l key dflt f).map Prod.fst).Nodup := by
  unfold alUpsert
  by_cases hc : alContains l key = true
  · rw [if_pos hc, alModify_map_fst]
    exact h
  · rw [if_neg hc]
    have hkey : key ∉ l.map Prod.fst := by
      intro hmem
      exact hc ((alContains_iff l key).mpr hmem)
    simp only [List.map_append, List.map_cons, List.map_nil]
    refine List.nodup_append.mpr ⟨h, List.nodup_singleton _, ?_⟩
    intro a ha hb
    have hb2 : a = key := by simpa using hb
    subst hb2
    exact hkey ha

theorem registerGroupStep_shape {config : ConfigInfo} {ni : NetworkInfo}
    {request : RegistrationRequest} {addr : SockAddrM} {tcp_sender : Option Nat}
    {ni' : NetworkInfo} {vip : Nat}
    (h : registerGroupStep config ni request addr tcp_sender = Except.ok (ni', vip)) :
    vip ≠ 0 ∧
    ni' = { ni with
      clients := alUpsert ni.clients vip ClientInfo.default (applyReg request addr tcp_sender vip)
      epoch := ni.epoch + 1 } ∧
    ∃ v1, effectiveVip config ni request = Except.ok v1 ∧
      ((stickyVip ni.clients request.device_id v1 = 0 ∧
        vip = scanIp ni.gateway_ip ni.clients ((config.gateway &&& config.netmask) + 1)
          ((config.gateway ||| u32not config.netmask) -
            ((config.gateway &&& config.netmask) + 1))) ∨
       (stickyVip ni.clients request.device_id v1 ≠ 0 ∧
        vip = stickyVip ni.clients request.device_id v1)) := by
  unfold registerGroupStep at h
  match heff : effectiveVip config ni request with
  | Except.error e =>
      rw [heff] at h
      exact absurd h (by simp)
  | Except.ok v1 =>
      rw [heff] at h
      simp only at h
      by_cases hv2 : stickyVip ni.clients request.device_id v1 = 0
      · rw [if_pos hv2] at h
        by_cases hv3 : scanIp ni.gateway_ip ni.clients
            ((config.gateway &&& config.netmask) + 1)
            ((config.gateway ||| u32not config.netmask) -
              ((config.gateway &&& config.netmask) + 1)) = 0
        · rw [if_pos hv3] at h
          exact absurd h (by simp)
        · rw [if_neg hv3] at h
          simp only [Except.ok.injEq, Prod.mk.injEq] at h
          obtain ⟨hni, hvip⟩ := h
          subst hvip
          exact ⟨hv3, hni.symm, v1, rfl, Or.inl ⟨hv2, rfl⟩⟩
      · rw [if_neg hv2] at h
        rw [if_neg hv2] at h
        simp only [Except.ok.injEq, Prod.mk.injEq] at h
        obtain ⟨hni, hvip⟩ := h
        subst hvip
        exact ⟨hv2, hni.symm, v1, rfl, Or.inr ⟨hv2, rfl⟩⟩


theorem and_or_not_mask (g m : Nat) (hg : g < 4294967296) :
    (g &&& m) ||| u32not m = g ||| u32not m := by
  apply Nat.eq_of_testBit_eq
  intro i
  simp only [Nat.testBit_lor, Nat.testBit_land, u32not, Nat.testBit_xor]
  have h32 : (4294967295 : Nat) = 2 ^ 32 - 1 := by norm_num
  by_cases hi : i < 32
  · have hM : Nat.testBit 4294967295 i = true := by
      rw [h32, Nat.testBit_two_pow_sub_one]
      simpa using hi
    rw [hM]
    cases g.testBit i <;> cases m.testBit i <;> rfl
  · have hM : Nat.testBit 4294967295 i = false := by
      rw [h32, Nat.testBit_two_pow_sub_one]
      simpa using hi
    have hgb : g.testBit i = false := by
      apply Nat.testBit_eq_false_of_lt
      calc g < 4294967296 := hg
        _ = 2 ^ 32 := by norm_num
        _ ≤ 2 ^ i := Nat.pow_le_pow_right (by norm_num) (by omega)
    rw [hM, hgb]
    cases m.testBit i <;> rfl

theorem registerGroupStep_vip_props {config : ConfigInfo} {ni : NetworkInfo}
    {request : RegistrationRequest} {addr : SockAddrM} {tcp_sender : Option Nat}
    {ni' : NetworkInfo} {vip : Nat}
    (hwf : config.gateway < 4294967296)
    (hinv : invNI config ni)
    (h : registerGroupStep config ni request addr tcp_sender = Except.ok (ni', vip)) :
    (config.gateway &&& config.netmask) + 1 ≤ vip ∧
    vip < (config.gateway ||| u32not config.netmask) ∧
    vip ≠ config.gateway := by
  unfold invNI goodNI at hinv
  obtain ⟨hnw, hmask, hgw, hnodup, hmem⟩ := hinv
  have hbroad : subnetBroadcast ni = config.gateway ||| u32not config.netmask := by
    unfold subnetBroadcast
    rw [hnw, hmask]
    exact and_or_not_mask config.gateway config.netmask hwf
  obtain ⟨hvip0, hni', v1, heff, hcase⟩ := registerGroupStep_shape h
  rcases hcase with ⟨hv2, hvscan⟩ | ⟨hv2, hvsticky⟩
  · have hspec := (scanIp_spec ni.gateway_ip ni.clients
      ((config.gateway ||| u32not config.netmask) -
        ((config.gateway &&& config.netmask) + 1))
      ((config.gateway &&& config.netmask) + 1) (by omega)).2
    rw [← hvscan] at hspec
    obtain ⟨ha, hb, hc, _, _⟩ := hspec hvip0
    refine ⟨ha, ?_, ?_⟩
    · by_cases hlo : (config.gateway &&& config.netmask) + 1 ≤
          config.gateway ||| u32not config.netmask
      · omega
      · have hlen : (config.gateway ||| u32not config.netmask) -
            ((config.gateway &&& config.netmask) + 1) = 0 := by omega
        rw [hlen] at hvscan
        simp only [scanIp] at hvscan
        exact absurd hvscan hvip0
    · rw [← hgw]
      exact hc
  · rcases stickyVip_cases ni.clients request.device_id v1 with hst | ⟨p, hp, _, hv⟩
    · rw [hst] at hvsticky
      have hv1ne : v1 ≠ 0 := by
        rw [hst] at hv2
        exact fun hz => hv2 (hz ▸ rfl)
      obtain ⟨h1, h2, h3, _⟩ := effectiveVip_ok_nonzero heff hv1ne
      subst hvsticky
      exact ⟨h1, h2, fun hEq => h3 hEq.symm⟩
    · rw [hv] at hvsticky
      subst hvsticky
      obtain ⟨hkeq, hlo, hhi, hgwne, _⟩ := hmem p hp
      rw [hkeq]
      refine ⟨?_, ?_, ?_⟩
      · rw [← hnw]
        exact hlo
      · rw [← hbroad]
        exact hhi
      · rw [← hgw]
        exact hgwne

theorem registerGroupStep_inv {config : ConfigInfo} {ni : NetworkInfo}
    {request : RegistrationRequest} {addr : SockAddrM} {tcp_sender : Option Nat}
    {ni' : NetworkInfo} {vip : Nat}
    (hwf : config.gateway < 4294967296)
    (hinv : invNI config ni)
    (h : registerGroupStep config ni request addr tcp_sender = Except.ok (ni', vip)) :
    invNI config ni' := by
  obtain ⟨hlo, hhi, hgwne⟩ := registerGroupStep_vip_props hwf hinv h
  obtain ⟨_, hni', _, _, _⟩ := registerGroupStep_shape h
  unfold invNI goodNI at hinv ⊢
  obtain ⟨hnw, hmask, hgw, hnodup, hmem⟩ := hinv
  have hbroad : subnetBroadcast ni = config.gateway ||| u32not config.netmask := by
    unfold subnetBroadcast
    rw [hnw, hmask]
    exact and_or_not_mask config.gateway config.netmask hwf
  subst hni'
  refine ⟨hnw, hmask, hgw, alUpsert_nodup hnodup, ?_⟩
  intro p hp
  have hbroad' : subnetBroadcast { ni with
      clients := alUpsert ni.clients vip ClientInfo.default (applyReg request addr tcp_sender vip)
      epoch := ni.epoch + 1 } = subnetBroadcast ni := rfl
  rcases mem_alUpsert hp with ⟨v, hvmem, hvcase⟩ | ⟨hpnew, _⟩
  · rcases hvcase with h1 | ⟨hkey, h2⟩
    · obtain ⟨hkeq, hl, hh, hg, hb⟩ := hmem (p.1, v) hvmem
      rw [hbroad']
      exact ⟨h1 ▸ hkeq, hl, hh, hg, hb⟩
    · obtain ⟨_, hl, hh, hg, hb⟩ := hmem (p.1, v) hvmem
      rw [hbroad']
      refine ⟨?_, hl, hh, hg, hb⟩
      rw [h2, hkey]
      rfl
  · have hp1 : p.1 = vip := by rw [hpnew]
    have hp2 : p.2 = applyReg request addr tcp_sender vip ClientInfo.default := by rw [hpnew]
    rw [hbroad', hp1, hp2]
    refine ⟨rfl, ?_, ?_, ?_, ?_⟩
    · rw [hnw]
      exact hlo
    · rw [hbroad]
      exact hhi
    · rw [hgw]
      exact hgwne
    · rw [hbroad]
      omega

theorem up_client_status_info_inv {config : ConfigInfo} {ni : NetworkInfo}
    {msg : ClientStatusInfoMsg} {now : Nat} (hinv : invNI config ni) :
    invNI config (up_client_status_info ni msg now) := by
  unfold invNI goodNI at hinv ⊢
  obtain ⟨hnw, hmask, hgw, hnodup, hmem⟩ := hinv
  unfold up_client_status_info
  refine ⟨hnw, hmask, hgw, ?_, ?_⟩
  · rw [alModify_map_fst]
    exact hnodup
  · intro p hp
    obtain ⟨v, hvmem, hcase⟩ := mem_alModify hp
    obtain ⟨hkeq, hl, hh, hg, hb⟩ := hmem (p.1, v) hvmem
    rcases hcase with h1 | ⟨_, h2⟩
    · exact ⟨h1 ▸ hkeq, hl, hh, hg, hb⟩
    · refine ⟨?_, hl, hh, hg, hb⟩
      rw [h2]
      exact hkeq

theorem reachNI_inv {config : ConfigInfo} {ni : NetworkInfo}
    (hwf : config.gateway < 4294967296) (h : ReachNI config ni) :
    invNI config ni := by
  induction h with
  | init =>
      unfold invNI goodNI NetworkInfo.new
      refine ⟨rfl, rfl, rfl, List.nodup_nil, ?_⟩
      intro p hp
      simp at hp
  | reg ni request addr tcp_sender ni' vip _ hstep ih =>
      exact registerGroupStep_inv hwf ih hstep
  | status ni msg now _ ih =>
      exact up_client_status_info_inv ih

deriving instance DecidableEq for Except

/-- Concrete 10.0.0.0/24 configuration for closed witnesses and
counterexamples: gateway 10.0.0.1, netmask 255.255.255.0, broadcast
10.0.0.255, no token allowlist. -/
def cfgA : ConfigInfo :=
  { gateway := 167772161
    netmask := 4294967040
    broadcast := 167772415
    white_token := none }

/-- A handler over cfgA with no RSA key. -/
def handlerA : ServerPacketHandler := { config := cfgA, rsa_cipher := none }

/-- A concrete IPv4 source address 203.0.113.5:4000. -/
def addrA : SockAddrM := { ip := IpAddrM.v4 3405803781, port := 4000 }

/-- A concrete registration request for device A of group T, letting the
server choose the virtual ip. -/
def reqA : RegistrationRequest :=
  { token := "T"
    device_id := "A"
    name := "A"
    version := "1"
    virtual_ip := 0
    client_secret := false
    allow_ip_change := false
    is_fast := false }

/-- The group state after device A registers into a fresh cfgA group:
one client at 10.0.0.2, epoch 1. -/
def niA : NetworkInfo :=
  { network_ip := 167772160
    mask_ip := 4294967040
    gateway_ip := 167772161
    epoch := 1
    clients := [(167772162, applyReg reqA addrA none 167772162 ClientInfo.default)] }

/-- C3: in every NetworkInfo state reachable through register and
up_client_status_info from group creation, the client keys are pairwise
distinct, every key lies in the usable range
(network_ip + 1 .. network_ip | complement of mask_ip), no key equals the
gateway or the broadcast address, and every client's virtual_ip equals its
key. -/
theorem c3_reachable_network_invariant (config : ConfigInfo) (ni : NetworkInfo)
    (hwf : config.gateway < 4294967296) (h : ReachNI config ni) :
    (ni.clients.map Prod.fst).Nodup ∧
    ∀ p ∈ ni.clients,
      p.2.virtual_ip = p.1 ∧
      ni.network_ip + 1 ≤ p.1 ∧
      p.1 < (ni.network_ip ||| u32not ni.mask_ip) ∧
      p.1 ≠ ni.gateway_ip ∧
      p.1 ≠ (ni.network_ip ||| u32not ni.mask_ip) := by
  have hi := reachNI_inv hwf h
  unfold invNI goodNI subnetBroadcast at hi
  exact ⟨hi.2.2.2.1, hi.2.2.2.2⟩

/-- Witness for C3 at the concrete reachable state niA. -/
theorem c3_reachable_network_invariant_witness :
    (niA.clients.map Prod.fst).Nodup ∧
    ∀ p ∈ niA.clients,
      p.2.virtual_ip = p.1 ∧
      niA.network_ip + 1 ≤ p.1 ∧
      p.1 < (niA.network_ip ||| u32not niA.mask_ip) ∧
      p.1 ≠ niA.gateway_ip ∧
      p.1 ≠ (niA.network_ip ||| u32not niA.mask_ip) :=
  c3_reachable_network_invariant cfgA niA (by decide)
    (ReachNI.reg _ reqA addrA none niA 167772162 ReachNI.init (by decide))

theorem register_eq_core {h : ServerPacketHandler} {st : ServerState}
    {request : RegistrationRequest} {addr : SockAddrM} {tcp_sender : Option Nat}
    (hcheck : check_reg request = Except.ok ())
    (htok : ∀ wt, h.config.white_token = some wt → request.token ∈ wt) :
    register h st request addr tcp_sender = registerCore h st request addr tcp_sender := by
  unfold register
  rw [hcheck]
  match hwt : h.config.white_token with
  | none => simp [hwt]
  | some wt =>
      have hmem : request.token ∈ wt := htok wt hwt
      simp [hwt, hmem]

theorem registerCore_step_error {h : ServerPacketHandler} {st : ServerState}
    {request : RegistrationRequest} {addr : SockAddrM} {tcp_sender : Option Nat} {e : ErrorM}
    (hstep : registerGroupStep h.config (groupOf h.config st request.token) request addr
      tcp_sender = Except.error e) :
    registerCore h st request addr tcp_sender =
      (Except.error e, { st with virtual_network := vnAfterCreate h st request.token }) := by
  unfold registerCore
  rw [hstep]

theorem registerCore_step_ok {h : ServerPacketHandler} {st : ServerState}
    {request : RegistrationRequest} {addr : SockAddrM} {tcp_sender : Option Nat}
    {ni' : NetworkInfo} {vip : Nat}
    (hstep : registerGroupStep h.config (groupOf h.config st request.token) request addr
      tcp_sender = Except.ok (ni', vip)) :
    registerCore h st request addr tcp_sender =
      (Except.ok (some (newEncryptPacket ProtocolM.Service TransportM.registrationResponse
        (PayloadM.registrationResponseBody (registerResponse h addr ni' vip)))),
       registerCommit h st request.token addr ni' vip) := by
  unfold registerCore
  rw [hstep]

theorem registerGroupStep_eq_scan {config : ConfigInfo} {ni : NetworkInfo}
    {request : RegistrationRequest} {addr : SockAddrM} {tcp_sender : Option Nat}
    (heff : effectiveVip config ni request = Except.ok 0)
    (hdev : ∀ p ∈ ni.clients, p.2.device_id ≠ request.device_id) :
    registerGroupStep config ni request addr tcp_sender =
      (if scanIp ni.gateway_ip ni.clients ((config.gateway &&& config.netmask) + 1)
          ((config.gateway ||| u32not config.netmask) -
            ((config.gateway &&& config.netmask) + 1)) = 0 then
        Except.error ErrorM.AddressExhausted
      else
        Except.ok ({ ni with
          clients := alUpsert ni.clients
            (scanIp ni.gateway_ip ni.clients ((config.gateway &&& config.netmask) + 1)
              ((config.gateway ||| u32not config.netmask) -
                ((config.gateway &&& config.netmask) + 1)))
            ClientInfo.default
            (applyReg request addr tcp_sender
              (scanIp ni.gateway_ip ni.clients ((config.gateway &&& config.netmask) + 1)
                ((config.gateway ||| u32not config.netmask) -
                  ((config.gateway &&& config.netmask) + 1))))
          epoch := ni.epoch + 1 },
        scanIp ni.gateway_ip ni.clients ((config.gateway &&& config.netmask) + 1)
          ((config.gateway ||| u32not config.netmask) -
            ((config.gateway &&& config.netmask) + 1)))) := by
  unfold registerGroupStep
  rw [heff]
  simp only
  rw [stickyVip_no_match hdev 0]
  simp

theorem alGet_vnAfterCreate (h : ServerPacketHandler) (st : ServerState)
    (group_id g : String) :
    alGet (vnAfterCreate h st group_id) g = alGet st.virtual_network g ∨
    (g = group_id ∧ alGet st.virtual_network g = none ∧
     alGet (vnAfterCreate h st group_id) g =
       some (NetworkInfo.new (h.config.gateway &&& h.config.netmask) h.config.netmask
         h.config.gateway)) := by
  unfold vnAfterCreate
  by_cases hc : alContains st.virtual_network group_id = true
  · rw [if_pos hc]
    exact Or.inl rfl
  · rw [if_neg hc]
    rw [alGet_append]
    cases halg : alGet st.virtual_network g with
    | some ni => exact Or.inl rfl
    | none =>
        by_cases hg : group_id = g
        · subst hg
          right
          refine ⟨rfl, rfl, ?_⟩
          simp [alGet]
        · left
          simp [alGet, hg]

theorem clientsOf_vnAfterCreate (h : ServerPacketHandler) (st : ServerState)
    (group_id g : String) :
    clientsOf { st with virtual_network := vnAfterCreate h st group_id } g =
      clientsOf st g := by
  unfold clientsOf
  rcases alGet_vnAfterCreate h st group_id g with heq | ⟨_, hnone, hnew⟩
  · simp only at heq ⊢
    rw [heq]
  · simp only at hnone hnew ⊢
    rw [hnone, hnew]
    rfl

theorem epochOf_vnAfterCreate (h : ServerPacketHandler) (st : ServerState)
    (group_id g : String) :
    epochOf { st with virtual_network := vnAfterCreate h st group_id } g = epochOf st g := by
  unfold epochOf
  rcases alGet_vnAfterCreate h st group_id g with heq | ⟨_, hnone, hnew⟩
  · simp only at heq ⊢
    rw [heq]
  · simp only at hnone hnew ⊢
    rw [hnone, hnew]
    rfl

instance (config : ConfigInfo) (ni : NetworkInfo) (ip : Nat) :
    Decidable (freeIp config ni ip) := by
  unfold freeIp
  infer_instance

/-- C1: for a registration that passes the length and allowlist guards,
whose effective requested virtual_ip is 0, into a group none of whose
clients carries the caller's device_id, the allocator assigns the smallest
address of the half-open range (gateway and netmask) + 1 up to
gateway or complement-of-netmask that is not the group's gateway_ip and
not a client key; when every such address is taken the registration fails
with AddressExhausted, the sessions are untouched and no client slot is
created. -/
theorem c1_allocator_smallest_free (h : ServerPacketHandler) (st : ServerState)
    (request : RegistrationRequest) (addr : SockAddrM) (tcp_sender : Option Nat)
    (hcheck : check_reg request = Except.ok ())
    (htok : ∀ wt, h.config.white_token = some wt → request.token ∈ wt)
    (heff : effectiveVip h.config (groupOf h.config st request.token) request = Except.ok 0)
    (hdev : ∀ p ∈ (groupOf h.config st request.token).clients,
      p.2.device_id ≠ request.device_id) :
    (∀ m, freeIp h.config (groupOf h.config st request.token) m →
      (∀ ip, freeIp h.config (groupOf h.config st request.token) ip → m ≤ ip) →
      ∃ response : RegistrationResponse,
        (register h st request addr tcp_sender).fst =
          Except.ok (some (newEncryptPacket ProtocolM.Service
            TransportM.registrationResponse
            (PayloadM.registrationResponseBody response))) ∧
        response.virtual_ip = m) ∧
    ((∀ ip, ¬freeIp h.config (groupOf h.config st request.token) ip) →
      (register h st request addr tcp_sender).fst = Except.error ErrorM.AddressExhausted ∧
      (register h st request addr tcp_sender).snd.ip_session = st.ip_session ∧
      (register h st request addr tcp_sender).snd.addr_session = st.addr_session ∧
      ∀ g, clientsOf (register h st request addr tcp_sender).snd g = clientsOf st g) := by
  have hlow : 0 < (h.config.gateway &&& h.config.netmask) + 1 := Nat.succ_pos _
  have hspec := scanIp_spec (groupOf h.config st request.token).gateway_ip
    (groupOf h.config st request.token).clients
    ((h.config.gateway ||| u32not h.config.netmask) -
      ((h.config.gateway &&& h.config.netmask) + 1))
    ((h.config.gateway &&& h.config.netmask) + 1) hlow
  have hrw := @register_eq_core h st request addr tcp_sender hcheck htok
  have hscan := @registerGroupStep_eq_scan h.config
    (groupOf h.config st request.token) request addr tcp_sender heff hdev
  set r := scanIp (groupOf h.config st request.token).gateway_ip
    (groupOf h.config st request.token).clients
    ((h.config.gateway &&& h.config.netmask) + 1)
    ((h.config.gateway ||| u32not h.config.netmask) -
      ((h.config.gateway &&& h.config.netmask) + 1)) with hrdef
  constructor
  · intro m hfree hmin
    obtain ⟨hm1, hm2, hm3, hm4⟩ := hfree
    by_cases hr : r = 0
    · exfalso
      rcases hspec.1 hr m hm1 (by omega) with hbad | hbad
      · exact hm3 hbad
      · rw [hm4] at hbad
        exact Bool.false_ne_true hbad
    · obtain ⟨ha, hb, hc, hd, he⟩ := hspec.2 hr
      have hrfree : freeIp h.config (groupOf h.config st request.token) r :=
        ⟨ha, by omega, hc, hd⟩
      have hmr := hmin r hrfree
      have hrm : r ≤ m := by
        by_contra hlt
        push_neg at hlt
        rcases he m hm1 hlt with hbad | hbad
        · exact hm3 hbad
        · rw [hm4] at hbad
          exact Bool.false_ne_true hbad
      have hreqm : r = m := le_antisymm hrm hmr
      rw [hreqm] at hscan
      rw [if_neg (show ¬m = 0 by omega)] at hscan
      rw [hrw, registerCore_step_ok hscan]
      exact ⟨registerResponse h addr _ m, rfl, rfl⟩
  · intro hnone
    have hr0 : r = 0 := by
      by_contra hr
      obtain ⟨ha, hb, hc, hd, _⟩ := hspec.2 hr
      exact hnone r ⟨ha, by omega, hc, hd⟩
    rw [hr0] at hscan
    rw [if_pos rfl] at hscan
    rw [hrw, registerCore_step_error hscan]
    exact ⟨rfl, rfl, rfl, fun g => clientsOf_vnAfterCreate h st request.token g⟩

/-- The empty server state. -/
def st0 : ServerState :=
  { virtual_network := [], ip_session := [], addr_session := [], cipher_session := [] }

/-- Witness for C1: against the empty state, device A of group T with
requested vip 0 is assigned 10.0.0.2, the smallest free address. -/
theorem c1_allocator_smallest_free_witness :
    ∃ response : RegistrationResponse,
      (register handlerA st0 reqA addrA none).fst =
        Except.ok (some (newEncryptPacket ProtocolM.Service
          TransportM.registrationResponse
          (PayloadM.registrationResponseBody response))) ∧
      response.virtual_ip = 167772162 :=
  (c1_allocator_smallest_free handlerA st0 reqA addrA none (by decide)
    (fun wt hwt => Option.noConfusion hwt) (by decide) (by decide)).1
    167772162 (by decide)
    (fun ip hip => by
      obtain ⟨h1, h2, h3, h4⟩ := hip
      have e1 : (handlerA.config.gateway &&& handlerA.config.netmask) + 1 = 167772161 := by
        decide
      have e2 : (groupOf handlerA.config st0 reqA.token).gateway_ip = 167772161 := by
        decide
      rw [e1] at h1
      rw [e2] at h3
      omega)

theorem effectiveVip_error_cases {config : ConfigInfo} {ni : NetworkInfo}
    {request : RegistrationRequest} {e : ErrorM}
    (h : effectiveVip config ni request = Except.error e) :
    e = ErrorM.InvalidIp ∨ e = ErrorM.IpAlreadyExists := by
  unfold effectiveVip at h
  by_cases hreq : request.virtual_ip ≠ 0
  · simp only [if_pos hreq] at h
    by_cases hbad : config.gateway = request.virtual_ip ∨
        config.broadcast = request.virtual_ip ∨
        ¬((config.gateway &&& config.netmask) + 1 ≤ request.virtual_ip ∧
          request.virtual_ip < (config.gateway ||| u32not config.netmask))
    · simp only [if_pos hbad] at h
      simp only [Except.error.injEq] at h
      exact Or.inl h.symm
    · simp only [if_neg hbad] at h
      match hget : alGet ni.clients request.virtual_ip with
      | some info =>
          rw [hget] at h
          by_cases hdev : info.device_id ≠ request.device_id
          · simp only [if_pos hdev] at h
            by_cases hchg : ¬request.allow_ip_change
            · simp only [if_pos hchg] at h
              simp only [Except.error.injEq] at h
              exact Or.inr h.symm
            · simp only [if_neg hchg] at h
              exact absurd h (by simp)
          · simp only [if_neg hdev] at h
            exact absurd h (by simp)
      | none =>
          rw [hget] at h
          exact absurd h (by simp)
  · simp only [if_neg hreq] at h
    exact absurd h (by simp)

theorem registerGroupStep_error_cases {config : ConfigInfo} {ni : NetworkInfo}
    {request : RegistrationRequest} {addr : SockAddrM} {tcp_sender : Option Nat} {e : ErrorM}
    (h : registerGroupStep config ni request addr tcp_sender = Except.error e) :
    e = ErrorM.InvalidIp ∨ e = ErrorM.IpAlreadyExists ∨ e = ErrorM.AddressExhausted := by
  unfold registerGroupStep at h
  match heff : effectiveVip config ni request with
  | Except.error e0 =>
      rw [heff] at h
      simp only [Except.error.injEq] at h
      rcases effectiveVip_error_cases heff with h1 | h1
      · exact Or.inl (h ▸ h1)
      · exact Or.inr (Or.inl (h ▸ h1))
  | Except.ok v1 =>
      rw [heff] at h
      simp only at h
      by_cases hv2 : stickyVip ni.clients request.device_id v1 = 0
      · rw [if_pos hv2] at h
        by_cases hv3 : scanIp ni.gateway_ip ni.clients
            ((config.gateway &&& config.netmask) + 1)
            ((config.gateway ||| u32not config.netmask) -
              ((config.gateway &&& config.netmask) + 1)) = 0
        · rw [if_pos hv3] at h
          simp only [Except.error.injEq] at h
          exact Or.inr (Or.inr h.symm)
        · rw [if_neg hv3] at h
          exact absurd h (by simp)
      · rw [if_neg hv2] at h
        rw [if_neg hv2] at h
        exact absurd h (by simp)

theorem register_cases (h : ServerPacketHandler) (st : ServerState)
    (request : RegistrationRequest) (addr : SockAddrM) (tcp_sender : Option Nat) :
    (∃ e, register h st request addr tcp_sender = (Except.error e, st)) ∨
    (∃ e, (e = ErrorM.InvalidIp ∨ e = ErrorM.IpAlreadyExists ∨ e = ErrorM.AddressExhausted) ∧
      register h st request addr tcp_sender =
        (Except.error e, { st with virtual_network := vnAfterCreate h st request.token })) ∨
    (∃ ni' vip,
      registerGroupStep h.config (groupOf h.config st request.token) request addr
        tcp_sender = Except.ok (ni', vip) ∧
      register h st request addr tcp_sender =
        (Except.ok (some (newEncryptPacket ProtocolM.Service TransportM.registrationResponse
          (PayloadM.registrationResponseBody (registerResponse h addr ni' vip)))),
         registerCommit h st request.token addr ni' vip)) := by
  match hcheck : check_reg request with
  | Except.error e0 =>
      left
      refine ⟨e0, ?_⟩
      unfold register
      rw [hcheck]
  | Except.ok u =>
      cases u
      by_cases htokfail : ∃ wt, h.config.white_token = some wt ∧ request.token ∉ wt
      · obtain ⟨wt, hwt, hmem⟩ := htokfail
        left
        refine ⟨ErrorM.TokenError, ?_⟩
        unfold register
        rw [hcheck]
        simp [hwt, hmem]
      · have htok : ∀ wt, h.config.white_token = some wt → request.token ∈ wt := by
          intro wt hwt
          by_contra hmem
          exact htokfail ⟨wt, hwt, hmem⟩
        have hrw := @register_eq_core h st request addr tcp_sender hcheck htok
        match hstep : registerGroupStep h.config (groupOf h.config st request.token)
            request addr tcp_sender with
        | Except.error e1 =>
            right
            left
            exact ⟨e1, registerGroupStep_error_cases hstep,
              hrw.trans (registerCore_step_error hstep)⟩
        | Except.ok (ni', vip) =>
            right
            right
            exact ⟨ni', vip, rfl, hrw.trans (registerCore_step_ok hstep)⟩

theorem epochOf_groupOf (config : ConfigInfo) (st : ServerState) (g : String) :
    (groupOf config st g).epoch = epochOf st g := by
  unfold groupOf epochOf
  cases alGet st.virtual_network g with
  | none => rfl
  | some ni => rfl

theorem epochOf_registerCommit (h : ServerPacketHandler) (st : ServerState)
    (group_id : String) (addr : SockAddrM) (ni' : NetworkInfo) (vip : Nat) (g : String) :
    epochOf (registerCommit h st group_id addr ni' vip) g =
      if g = group_id then ni'.epoch else epochOf st g := by
  unfold registerCommit epochOf
  by_cases hg : g = group_id
  · rw [if_pos hg]
    subst hg
    rw [alGet_alSet_self]
  · rw [if_neg hg]
    rw [alGet_alSet_ne _ _ _ _ hg]
    rcases alGet_vnAfterCreate h st group_id g with h1 | ⟨h2, _, _⟩
    · rw [h1]
    · exact absurd h2 hg

theorem clientsOf_registerCommit (h : ServerPacketHandler) (st : ServerState)
    (group_id : String) (addr : SockAddrM) (ni' : NetworkInfo) (vip : Nat) (g : String) :
    clientsOf (registerCommit h st group_id addr ni' vip) g =
      if g = group_id then ni'.clients else clientsOf st g := by
  unfold registerCommit clientsOf
  by_cases hg : g = group_id
  · rw [if_pos hg]
    subst hg
    rw [alGet_alSet_self]
  · rw [if_neg hg]
    rw [alGet_alSet_ne _ _ _ _ hg]
    rcases alGet_vnAfterCreate h st group_id g with h1 | ⟨h2, _, _⟩
    · rw [h1]
    · exact absurd h2 hg

theorem register_epochOf_le (h : ServerPacketHandler) (st : ServerState)
    (request : RegistrationRequest) (addr : SockAddrM) (tcp_sender : Option Nat)
    (g : String) :
    epochOf st g ≤ epochOf (register h st request addr tcp_sender).snd g := by
  rcases register_cases h st request addr tcp_sender with
    ⟨e, heq⟩ | ⟨e, _, heq⟩ | ⟨ni', vip, hstep, heq⟩
  · rw [heq]
  · rw [heq]
    rw [epochOf_vnAfterCreate]
  · rw [heq]
    simp only
    rw [epochOf_registerCommit]
    by_cases hg : g = request.token
    · rw [if_pos hg]
      obtain ⟨_, hni', _⟩ := registerGroupStep_shape hstep
      have hep : ni'.epoch = epochOf st request.token + 1 := by
        rw [hni']
        simp only
        rw [epochOf_groupOf]
      rw [hg]
      omega
    · rw [if_neg hg]

theorem register_failure_state {h : ServerPacketHandler} {st : ServerState}
    {request : RegistrationRequest} {addr : SockAddrM} {tcp_sender : Option Nat}
    {e : ErrorM} {st' : ServerState}
    (hreg : register h st request addr tcp_sender = (Except.error e, st')) :
    st'.ip_session = st.ip_session ∧
    st'.addr_session = st.addr_session ∧
    st'.cipher_session = st.cipher_session ∧
    (∀ g, epochOf st' g = epochOf st g) ∧
    (∀ g, clientsOf st' g = clientsOf st g) ∧
    (∀ g, g ≠ request.token → alGet st'.virtual_network g = alGet st.virtual_network g) ∧
    (alGet st'.virtual_network request.token = alGet st.virtual_network request.token ∨
      (alGet st.virtual_network request.token = none ∧
       alGet st'.virtual_network request.token =
         some (NetworkInfo.new (h.config.gateway &&& h.config.netmask) h.config.netmask
           h.config.gateway))) ∧
    ((e = ErrorM.TokenError ∨ e = ErrorM.Other "group length error" ∨
      e = ErrorM.Other "device_id length error" ∨ e = ErrorM.Other "name length error") →
      st' = st) := by
  rcases register_cases h st request addr tcp_sender with
    ⟨e0, heq⟩ | ⟨e0, hecase, heq⟩ | ⟨ni', vip, _, heq⟩
  · rw [hreg] at heq
    have hst : st' = st := congrArg Prod.snd heq
    subst hst
    exact ⟨rfl, rfl, rfl, fun g => rfl, fun g => rfl, fun g _ => rfl, Or.inl rfl,
      fun _ => rfl⟩
  · rw [hreg] at heq
    have he : e = e0 := by
      have := congrArg Prod.fst heq
      simpa using this
    have hst : st' = { st with virtual_network := vnAfterCreate h st request.token } :=
      congrArg Prod.snd heq
    subst hst
    refine ⟨rfl, rfl, rfl,
      fun g => epochOf_vnAfterCreate h st request.token g,
      fun g => clientsOf_vnAfterCreate h st request.token g, ?_, ?_, ?_⟩
    · intro g hg
      rcases alGet_vnAfterCreate h st request.token g with h1 | ⟨h2, _, _⟩
      · exact h1
      · exact absurd h2 hg
    · rcases alGet_vnAfterCreate h st request.token request.token with h1 | ⟨_, h3, h4⟩
      · exact Or.inl h1
      · exact Or.inr ⟨h3, h4⟩
    · intro hbad
      exfalso
      subst he
      rcases hecase with h1 | h1 | h1 <;> rcases hbad with h2 | h2 | h2 | h2 <;>
        simp_all
  · rw [hreg] at heq
    have := congrArg Prod.fst heq
    simp at this

theorem register_success_shape {h : ServerPacketHandler} {st : ServerState}
    {request : RegistrationRequest} {addr : SockAddrM} {tcp_sender : Option Nat}
    {res : Option NetPacketM} {st' : ServerState}
    (hreg : register h st request addr tcp_sender = (Except.ok res, st')) :
    ∃ ni' vip,
      registerGroupStep h.config (groupOf h.config st request.token) request addr
        tcp_sender = Except.ok (ni', vip) ∧
      res = some (newEncryptPacket ProtocolM.Service TransportM.registrationResponse
        (PayloadM.registrationResponseBody (registerResponse h addr ni' vip))) ∧
      st' = registerCommit h st request.token addr ni' vip := by
  rcases register_cases h st request addr tcp_sender with
    ⟨e0, heq⟩ | ⟨e0, _, heq⟩ | ⟨ni', vip, hstep, heq⟩
  · rw [hreg] at heq
    have := congrArg Prod.fst heq
    simp at this
  · rw [hreg] at heq
    have := congrArg Prod.fst heq
    simp at this
  · rw [hreg] at heq
    have hres : res = some (newEncryptPacket ProtocolM.Service
        TransportM.registrationResponse
        (PayloadM.registrationResponseBody (registerResponse h addr ni' vip))) := by
      have := congrArg Prod.fst heq
      simpa using this
    have hst : st' = registerCommit h st request.token addr ni' vip :=
      congrArg Prod.snd heq
    exact ⟨ni', vip, hstep, hres, hst⟩

theorem secret_handshake_epochOf (h : ServerPacketHandler) (st : ServerState)
    (net_packet : NetPacketM) (addr : SockAddrM) (g : String) :
    epochOf (secret_handshake h st net_packet addr).snd g = epochOf st g := by
  unfold secret_handshake
  match h.rsa_cipher with
  | none => rfl
  | some r =>
      match net_packet.rsaBody with
      | none => rfl
      | some body =>
          by_cases hk : body.key.length = 32
          · simp only [hk]
            rfl
          · simp [hk]

theorem epochOf_updateGroup_status (st : ServerState) (group g : String)
    (msg : ClientStatusInfoMsg) (now : Nat) :
    epochOf (updateGroup st group (fun ni => up_client_status_info ni msg now)) g =
      epochOf st g := by
  unfold updateGroup epochOf
  by_cases hg : g = group
  · subst hg
    rw [alGet_alModify_self]
    cases alGet st.virtual_network g with
    | none => rfl
    | some ni => rfl
  · rw [alGet_alModify_ne _ _ _ _ hg]

/-- C4: across every handler operation the epoch of every group never
decreases, and a successful registration increments the touched group's
epoch by exactly one and reports the new value truncated to u32 in the
RegistrationResponse. -/
theorem c4_epoch_monotone_and_increment :
    (∀ (h : ServerPacketHandler) (st : ServerState) (net_packet : NetPacketM)
        (addr : SockAddrM) (tcp_sender : Option Nat) (now : Nat) (g : String),
      epochOf st g ≤ epochOf (handle h st net_packet addr tcp_sender now).snd g) ∧
    (∀ (h : ServerPacketHandler) (st : ServerState) (request : RegistrationRequest)
        (addr : SockAddrM) (tcp_sender : Option Nat) (pkt : NetPacketM)
        (response : RegistrationResponse) (st' : ServerState),
      register h st request addr tcp_sender = (Except.ok (some pkt), st') →
      pkt.payload = PayloadM.registrationResponseBody response →
      epochOf st' request.token = epochOf st request.token + 1 ∧
      response.epoch = u32trunc (epochOf st request.token + 1)) := by
  constructor
  · intro h st net_packet addr tcp_sender now g
    unfold handle
    by_cases h1 : net_packet.protocol = ProtocolM.Service ∧
        net_packet.transport_protocol = TransportM.handshakeRequest
    · rw [if_pos h1]
    · rw [if_neg h1]
      by_cases h2 : net_packet.protocol = ProtocolM.Service ∧
          net_packet.transport_protocol = TransportM.secretHandshakeRequest
      · rw [if_pos h2]
        rw [secret_handshake_epochOf]
      · rw [if_neg h2]
        match hgate : (if net_packet.encrypted = true then
            match alGet st.cipher_session addr with
            | some aes => decrypt_ipv4 aes net_packet
            | none => Except.error ErrorM.NoKey
          else Except.ok net_packet) with
        | Except.error e =>
          rw [hgate]
        | Except.ok np =>
          rw [hgate]
          simp only
          by_cases h3 : np.protocol = ProtocolM.Service ∧
              np.transport_protocol = TransportM.registrationRequest
          · rw [if_pos h3]
            cases hpay : np.payload <;> try exact le_refl _
            exact register_epochOf_le h st _ addr tcp_sender g
          · rw [if_neg h3]
            by_cases h4 : np.protocol = ProtocolM.Control ∧
                np.transport_protocol = TransportM.addrRequest
            · rw [if_pos h4]
            · rw [if_neg h4]
              cases hctx : getContext st addr with
              | none => exact le_refl _
              | some ctx =>
                  obtain ⟨group, vip, ni⟩ := ctx
                  cases hp : np.protocol <;> try exact le_refl _
                  · cases ht : np.transport_protocol <;> try exact le_refl _
                    cases hpay : np.payload <;> try exact le_refl _
                    exact le_of_eq (epochOf_updateGroup_status st group g _ now).symm
                  · cases ht : np.transport_protocol <;> exact le_refl _
                  · cases ht : np.transport_protocol <;> try exact le_refl _
                    cases hpay : np.payload <;> exact le_refl _
  · intro h st request addr tcp_sender pkt response st' hreg hpay
    obtain ⟨ni', vip, hstep, hres, hst⟩ := register_success_shape hreg
    have hpkt : pkt = newEncryptPacket ProtocolM.Service TransportM.registrationResponse
        (PayloadM.registrationResponseBody (registerResponse h addr ni' vip)) := by
      simpa using hres
    have hresp : response = registerResponse h addr ni' vip := by
      rw [hpkt] at hpay
      simpa [newEncryptPacket] using hpay.symm
    obtain ⟨_, hni', _⟩ := registerGroupStep_shape hstep
    have hep : ni'.epoch = epochOf st request.token + 1 := by
      rw [hni']
      simp only
      rw [epochOf_groupOf]
    constructor
    · rw [hst, epochOf_registerCommit, if_pos rfl]
      exact hep
    · rw [hresp]
      unfold registerResponse
      simp only
      rw [hep]

/-- The virtual_ip carried by a RegistrationResponse reply, when the
outcome is one. -/
def respVipOf : Except ErrorM (Option NetPacketM) → Option Nat
  | Except.ok (some pkt) =>
      match pkt.payload with
      | PayloadM.registrationResponseBody r => some r.virtual_ip
      | _ => none
  | _ => none

/-- Server state holding group T with device A online at 10.0.0.2. -/
def stA : ServerState :=
  { virtual_network := [("T", niA)]
    ip_session := [(("T", 167772162), addrA)]
    addr_session := [(addrA, ("T", 167772162))]
    cipher_session := [] }

/-- Device A re-registering while requesting the free address 10.0.0.3. -/
def reqW : RegistrationRequest := { reqA with virtual_ip := 167772163 }

/-- Counterexample to C2: device A holds 10.0.0.2 and requests the free,
valid address 10.0.0.3, yet the response assigns 10.0.0.2 again - the
unconditional device-stickiness loop overrides the requested vip. -/
theorem c2_requested_free_vip_counterexample :
    respVipOf (register handlerA stA reqW addrA none).fst = some 167772162 ∧
    respVipOf (register handlerA stA reqW addrA none).fst ≠ some 167772163 := by
  decide

/-- C2 amended: when a device that already holds vip v re-registers
requesting a different valid free vip, the registration succeeds but
returns v, the device's existing vip - device stickiness always wins and
the requested free vip is ignored. -/
theorem c2_device_stickiness_overrides_request (h : ServerPacketHandler)
    (st : ServerState) (request : RegistrationRequest) (addr : SockAddrM)
    (tcp_sender : Option Nat) (v : Nat)
    (hcheck : check_reg request = Except.ok ())
    (htok : ∀ wt, h.config.white_token = some wt → request.token ∈ wt)
    (hw0 : request.virtual_ip ≠ 0)
    (hwgw : h.config.gateway ≠ request.virtual_ip)
    (hwbc : h.config.broadcast ≠ request.virtual_ip)
    (hwlo : (h.config.gateway &&& h.config.netmask) + 1 ≤ request.virtual_ip)
    (hwhi : request.virtual_ip < (h.config.gateway ||| u32not h.config.netmask))
    (hwfree : alGet (groupOf h.config st request.token).clients request.virtual_ip = none)
    (hex : ∃ p ∈ (groupOf h.config st request.token).clients,
      p.2.device_id = request.device_id)
    (hall : ∀ p ∈ (groupOf h.config st request.token).clients,
      p.2.device_id = request.device_id → p.2.virtual_ip = v)
    (hv0 : v ≠ 0) :
    ∃ response : RegistrationResponse,
      (register h st request addr tcp_sender).fst =
        Except.ok (some (newEncryptPacket ProtocolM.Service
          TransportM.registrationResponse
          (PayloadM.registrationResponseBody response))) ∧
      response.virtual_ip = v := by
  have heff : effectiveVip h.config (groupOf h.config st request.token) request =
      Except.ok request.virtual_ip := by
    unfold effectiveVip
    rw [if_pos hw0]
    rw [if_neg (show ¬(h.config.gateway = request.virtual_ip ∨
        h.config.broadcast = request.virtual_ip ∨
        ¬((h.config.gateway &&& h.config.netmask) + 1 ≤ request.virtual_ip ∧
          request.virtual_ip < (h.config.gateway ||| u32not h.config.netmask))) from by
      push_neg
      exact ⟨hwgw, hwbc, hwlo, hwhi⟩)]
    rw [hwfree]
  have hstick := stickyVip_all_eq hall hex request.virtual_ip
  have hstep : registerGroupStep h.config (groupOf h.config st request.token) request
      addr tcp_sender =
      Except.ok ({ groupOf h.config st request.token with
        clients := alUpsert (groupOf h.config st request.token).clients v
          ClientInfo.default (applyReg request addr tcp_sender v)
        epoch := (groupOf h.config st request.token).epoch + 1 }, v) := by
    unfold registerGroupStep
    rw [heff]
    simp only
    rw [hstick]
    rw [if_neg hv0, if_neg hv0]
  exact ⟨registerResponse h addr _ v,
    by rw [register_eq_core hcheck htok, registerCore_step_ok hstep], rfl⟩

/-- Witness for the amended C2 at the concrete input of the
counterexample: the returned vip is 10.0.0.2, the one device A already
holds. -/
theorem c2_device_stickiness_overrides_request_witness :
    ∃ response : RegistrationResponse,
      (register handlerA stA reqW addrA none).fst =
        Except.ok (some (newEncryptPacket ProtocolM.Service
          TransportM.registrationResponse
          (PayloadM.registrationResponseBody response))) ∧
      response.virtual_ip = 167772162 :=
  c2_device_stickiness_overrides_request handlerA stA reqW addrA none 167772162
    (by decide) (fun wt hwt => Option.noConfusion hwt) (by decide) (by decide)
    (by decide) (by decide) (by decide) (by decide) (by decide) (by decide) (by decide)

/-- Witness for C4 at a concrete successful registration: device A joins
the fresh group T, epoch goes from 0 to 1 and the response reports 1. -/
theorem c4_epoch_monotone_and_increment_witness :
    epochOf (registerCommit handlerA st0 reqA.token addrA niA 167772162) reqA.token =
      epochOf st0 reqA.token + 1 ∧
    (registerResponse handlerA addrA niA 167772162).epoch =
      u32trunc (epochOf st0 reqA.token + 1) :=
  c4_epoch_monotone_and_increment.2 handlerA st0 reqA addrA none
    (newEncryptPacket ProtocolM.Service TransportM.registrationResponse
      (PayloadM.registrationResponseBody (registerResponse handlerA addrA niA 167772162)))
    (registerResponse handlerA addrA niA 167772162)
    (registerCommit handlerA st0 reqA.token addrA niA 167772162)
    (by decide) (by decide)

/-- Device C requesting the gateway address itself, which is invalid. -/
def reqGW : RegistrationRequest := { reqA with virtual_ip := 167772161 }

/-- Counterexample to C5: against the empty state, a registration for the
fresh group T that fails with InvalidIp still creates the group's
directory entry, so a failing registration does mutate server state. -/
theorem c5_failed_registration_creates_group_counterexample :
    (register handlerA st0 reqGW addrA none).fst = Except.error ErrorM.InvalidIp ∧
    alGet st0.virtual_network "T" = none ∧
    alGet (register handlerA st0 reqGW addrA none).snd.virtual_network "T" =
      some (NetworkInfo.new 167772160 4294967040 167772161) := by
  decide

/-- C5 amended: a failed registration produces no packet and leaves the
sessions, every group's clients and epoch, and every other group entry
unchanged; a length or token failure changes nothing at all, while an
allocation failure (InvalidIp, IpAlreadyExists, AddressExhausted) can at
most get-or-create the fresh, empty directory entry of the caller's own
group. -/
theorem c5_register_failure_no_mutation (h : ServerPacketHandler) (st : ServerState)
    (request : RegistrationRequest) (addr : SockAddrM) (tcp_sender : Option Nat)
    (e : ErrorM) (st' : ServerState)
    (hreg : register h st request addr tcp_sender = (Except.error e, st')) :
    st'.ip_session = st.ip_session ∧
    st'.addr_session = st.addr_session ∧
    st'.cipher_session = st.cipher_session ∧
    (∀ g, epochOf st' g = epochOf st g) ∧
    (∀ g, clientsOf st' g = clientsOf st g) ∧
    (∀ g, g ≠ request.token → alGet st'.virtual_network g = alGet st.virtual_network g) ∧
    (alGet st'.virtual_network request.token = alGet st.virtual_network request.token ∨
      (alGet st.virtual_network request.token = none ∧
       alGet st'.virtual_network request.token =
         some (NetworkInfo.new (h.config.gateway &&& h.config.netmask) h.config.netmask
           h.config.gateway))) ∧
    ((e = ErrorM.TokenError ∨ e = ErrorM.Other "group length error" ∨
      e = ErrorM.Other "device_id length error" ∨ e = ErrorM.Other "name length error") →
      st' = st) :=
  register_failure_state hreg

/-- Witness for the amended C5 at the InvalidIp counterexample input. -/
theorem c5_register_failure_no_mutation_witness :
    ({ st0 with virtual_network :=
        [("T", NetworkInfo.new 167772160 4294967040 167772161)] } : ServerState).ip_session =
      st0.ip_session ∧
    epochOf { st0 with virtual_network :=
      [("T", NetworkInfo.new 167772160 4294967040 167772161)] } "T" = epochOf st0 "T" ∧
    clientsOf { st0 with virtual_network :=
      [("T", NetworkInfo.new 167772160 4294967040 167772161)] } "T" = clientsOf st0 "T" :=
  have hmain := c5_register_failure_no_mutation handlerA st0 reqGW addrA none
    ErrorM.InvalidIp
    { st0 with virtual_network := [("T", NetworkInfo.new 167772160 4294967040 167772161)] }
    (by decide)
  ⟨hmain.1, hmain.2.2.2.1 "T", hmain.2.2.2.2.1 "T"⟩

theorem secret_handshake_fst_ne_nokey (h : ServerPacketHandler) (st : ServerState)
    (net_packet : NetPacketM) (addr : SockAddrM) :
    (secret_handshake h st net_packet addr).fst ≠ Except.error ErrorM.NoKey := by
  unfold secret_handshake
  match h.rsa_cipher with
  | none => simp
  | some r =>
      match net_packet.rsaBody with
      | none => simp
      | some body =>
          by_cases hk : body.key.length = 32
          · simp [hk]
          · simp [hk]

/-- C6: an encrypted inbound packet whose source address has no cipher
session fails with NoKey, with no reply and no state change - except that
Service packets with sub-protocol HandshakeRequest or
SecretHandshakeRequest are dispatched before the decryption gate, never
consult the cipher session, and never yield NoKey. -/
theorem c6_encrypted_requires_session_except_handshakes :
    (∀ (h : ServerPacketHandler) (st : ServerState) (net_packet : NetPacketM)
        (addr : SockAddrM) (tcp_sender : Option Nat) (now : Nat),
      net_packet.encrypted = true →
      alGet st.cipher_session addr = none →
      ¬(net_packet.protocol = ProtocolM.Service ∧
        (net_packet.transport_protocol = TransportM.handshakeRequest ∨
         net_packet.transport_protocol = TransportM.secretHandshakeRequest)) →
      handle h st net_packet addr tcp_sender now = (Except.error ErrorM.NoKey, st)) ∧
    (∀ (h : ServerPacketHandler) (st : ServerState) (net_packet : NetPacketM)
        (addr : SockAddrM) (tcp_sender : Option Nat) (now : Nat),
      net_packet.protocol = ProtocolM.Service →
      net_packet.transport_protocol = TransportM.handshakeRequest →
      handle h st net_packet addr tcp_sender now = (handshake h net_packet addr, st)) ∧
    (∀ (h : ServerPacketHandler) (st : ServerState) (net_packet : NetPacketM)
        (addr : SockAddrM) (tcp_sender : Option Nat) (now : Nat),
      net_packet.protocol = ProtocolM.Service →
      net_packet.transport_protocol = TransportM.secretHandshakeRequest →
      handle h st net_packet addr tcp_sender now = secret_handshake h st net_packet addr ∧
      (handle h st net_packet addr tcp_sender now).fst ≠ Except.error ErrorM.NoKey) := by
  refine ⟨?_, ?_, ?_⟩
  · intro h st net_packet addr tcp_sender now henc hsess hns
    unfold handle
    rw [if_neg (fun hc : net_packet.protocol = ProtocolM.Service ∧
        net_packet.transport_protocol = TransportM.handshakeRequest =>
      hns ⟨hc.1, Or.inl hc.2⟩)]
    rw [if_neg (fun hc : net_packet.protocol = ProtocolM.Service ∧
        net_packet.transport_protocol = TransportM.secretHandshakeRequest =>
      hns ⟨hc.1, Or.inr hc.2⟩)]
    have hgate : (if net_packet.encrypted = true then
        match alGet st.cipher_session addr with
        | some aes => decrypt_ipv4 aes net_packet
        | none => Except.error ErrorM.NoKey
      else Except.ok net_packet) = Except.error ErrorM.NoKey := by
      rw [if_pos henc]
      rw [hsess]
    rw [hgate]
  · intro h st net_packet addr tcp_sender now hp ht
    unfold handle
    rw [if_pos ⟨hp, ht⟩]
  · intro h st net_packet addr tcp_sender now hp ht
    have hrw : handle h st net_packet addr tcp_sender now =
        secret_handshake h st net_packet addr := by
      unfold handle
      rw [if_neg (fun hc : net_packet.protocol = ProtocolM.Service ∧
          net_packet.transport_protocol = TransportM.handshakeRequest => by
        rw [ht] at hc
        exact absurd hc.2 (by simp))]
      rw [if_pos ⟨hp, ht⟩]
    refine ⟨hrw, ?_⟩
    rw [hrw]
    exact secret_handshake_fst_ne_nokey h st net_packet addr

/-- An encrypted Control/Ping packet used to witness the NoKey gate. -/
def pktEnc : NetPacketM :=
  { protocol := ProtocolM.Control
    transport_protocol := TransportM.ping
    encrypted := true
    gateway := false
    source := 0
    destination := 0
    payload := PayloadM.bytes [0, 0, 0, 0]
    sealedWith := some [1]
    rsaBody := none }

/-- Witness for C6: an encrypted ping from an address with no cipher
session is rejected with NoKey. -/
theorem c6_encrypted_requires_session_except_handshakes_witness :
    handle handlerA st0 pktEnc addrA none 0 = (Except.error ErrorM.NoKey, st0) :=
  c6_encrypted_requires_session_except_handshakes.1 handlerA st0 pktEnc addrA none 0
    (by decide) (by decide) (by decide)

/-- C7: broadcast delivers the inner packet buffer to exactly the online,
non-excluded clients of the matching secrecy cohort, over the client's TCP
sink when attached and otherwise over UDP to its address, and its
io::Result is always Ok. -/
theorem c7_broadcast_filter_and_transport :
    ∀ (ni : NetworkInfo) (net_packet : InnerPacketM) (exclude : List Nat),
      (broadcast ni net_packet exclude).fst = Except.ok () ∧
      ∀ ip act, (ip, act) ∈ (broadcast ni net_packet exclude).snd ↔
        ∃ ci, (ip, ci) ∈ ni.clients ∧ ci.online = true ∧ ip ∉ exclude ∧
          ci.client_secret = net_packet.encrypted ∧
          act = (match ci.tcp_sender with
                 | some sender => SendActionM.tcpSend sender net_packet.buffer
                 | none => SendActionM.udpSend ci.address net_packet.buffer) := by
  intro ni net_packet exclude
  refine ⟨rfl, ?_⟩
  intro ip act
  unfold broadcast broadcastActions
  simp only
  rw [List.mem_filterMap]
  constructor
  · rintro ⟨p, hp, hfp⟩
    by_cases hc : p.2.online = true ∧ p.1 ∉ exclude ∧
        p.2.client_secret = net_packet.encrypted
    · rw [if_pos hc] at hfp
      simp only [Option.some.injEq, Prod.mk.injEq] at hfp
      obtain ⟨hip, hact⟩ := hfp
      refine ⟨p.2, ?_, hc.1, ?_, hc.2.2, hact.symm⟩
      · rw [← hip]
        simpa using hp
      · rw [← hip]
        exact hc.2.1
    · rw [if_neg hc] at hfp
      exact absurd hfp (by simp)
  · rintro ⟨ci, hmem, hon, hex, hsec, hact⟩
    refine ⟨(ip, ci), hmem, ?_⟩
    rw [if_pos (show (ip, ci).2.online = true ∧ (ip, ci).1 ∉ exclude ∧
        (ip, ci).2.client_secret = net_packet.encrypted from ⟨hon, hex, hsec⟩)]
    rw [hact]

/-- C8 amended: for every context-bearing, plaintext IpTurn/Ipv4 packet
whose payload is an ICMP EchoRequest - whatever its destination - handle
synthesizes an EchoReply: the IPv4 source and destination are set from the
envelope destination and source (a swap whenever envelope and header
agree), the ICMP kind flips to EchoReply, the ICMP checksum is recomputed
over the flipped packet and the IPv4 checksum over the rewritten header,
the envelope source and destination are swapped, the gateway flag is set
and the state is unchanged. -/
theorem c8_icmp_echo_reply_synthesized (h : ServerPacketHandler) (st : ServerState)
    (net_packet : NetPacketM) (addr : SockAddrM) (tcp_sender : Option Nat) (now : Nat)
    (group : String) (vip : Nat) (ni : NetworkInfo) (ip4 : Ipv4PacketM)
    (ic : IcmpPacketM)
    (hctx : getContext st addr = some (group, vip, ni))
    (henc : net_packet.encrypted = false)
    (hproto : net_packet.protocol = ProtocolM.IpTurn)
    (htrans : net_packet.transport_protocol = TransportM.ipv4)
    (hpay : net_packet.payload = PayloadM.ipv4Payload ip4)
    (hipproto : ip4.protocol = IpProtoM.icmp)
    (hicmp : ip4.payload = IpPayloadM.icmpPayload ic)
    (hkind : ic.kind = IcmpKindM.echoRequest) :
    handle h st net_packet addr tcp_sender now =
      (Except.ok (some { net_packet with
        source := net_packet.destination
        destination := net_packet.source
        gateway := true
        payload := PayloadM.ipv4Payload { ip4 with
          source_ip := net_packet.destination
          destination_ip := net_packet.source
          checksum := ipv4HeaderChecksum { ip4 with
            payload := IpPayloadM.icmpPayload { ic with
              kind := IcmpKindM.echoReply
              checksum := icmpChecksum IcmpKindM.echoReply ic.body }
            source_ip := net_packet.destination
            destination_ip := net_packet.source }
          payload := IpPayloadM.icmpPayload { ic with
            kind := IcmpKindM.echoReply
            checksum := icmpChecksum IcmpKindM.echoReply ic.body } } }), st) := by
  unfold handle
  rw [if_neg (show ¬(net_packet.protocol = ProtocolM.Service ∧
      net_packet.transport_protocol = TransportM.handshakeRequest) from fun hc => by
    rw [hproto] at hc
    exact absurd hc.1 (by simp))]
  rw [if_neg (show ¬(net_packet.protocol = ProtocolM.Service ∧
      net_packet.transport_protocol = TransportM.secretHandshakeRequest) from fun hc => by
    rw [hproto] at hc
    exact absurd hc.1 (by simp))]
  have hgate : (if net_packet.encrypted = true then
      match alGet st.cipher_session addr with
      | some aes => decrypt_ipv4 aes net_packet
      | none => Except.error ErrorM.NoKey
    else Except.ok net_packet) = Except.ok net_packet := by
    rw [if_neg (by simp [henc])]
  rw [hgate]
  simp only
  rw [if_neg (show ¬(net_packet.protocol = ProtocolM.Service ∧
      net_packet.transport_protocol = TransportM.registrationRequest) from fun hc => by
    rw [hproto] at hc
    exact absurd hc.1 (by simp))]
  rw [if_neg (show ¬(net_packet.protocol = ProtocolM.Control ∧
      net_packet.transport_protocol = TransportM.addrRequest) from fun hc => by
    rw [hproto] at hc
    exact absurd hc.1 (by simp))]
  rw [hctx]
  simp only
  rw [hproto]
  simp only
  rw [htrans]
  simp only
  unfold handleIpv4
  rw [hpay]
  simp only
  rw [hipproto]
  simp only
  rw [hicmp]
  simp only
  rw [if_pos hkind]
  rw [hproto, htrans]

/-- The ICMP echo request used in the C8 fixtures. -/
def icPing : IcmpPacketM := { kind := IcmpKindM.echoRequest, checksum := 0, body := [1, 2] }

/-- The IPv4 packet around icPing, destined to 10.0.0.3 (not the gateway). -/
def ip4Ping : Ipv4PacketM :=
  { protocol := IpProtoM.icmp
    source_ip := 167772162
    destination_ip := 167772163
    checksum := 0
    header_rest := [69]
    payload := IpPayloadM.icmpPayload icPing }

/-- An IpTurn/Ipv4 envelope around ip4Ping, destined to 10.0.0.3. -/
def pktPing : NetPacketM :=
  { protocol := ProtocolM.IpTurn
    transport_protocol := TransportM.ipv4
    encrypted := false
    gateway := false
    source := 167772162
    destination := 167772163
    payload := PayloadM.ipv4Payload ip4Ping
    sealedWith := none
    rsaBody := none }

/-- Whether the outcome carries a reply packet. -/
def isSomeReply : Except ErrorM (Option NetPacketM) → Bool
  | Except.ok (some _) => true
  | _ => false

/-- The destination of the inner IPv4 payload, when there is one. -/
def innerIpv4Dest (pkt : NetPacketM) : Option Nat :=
  match pkt.payload with
  | PayloadM.ipv4Payload p => some p.destination_ip
  | _ => none

/-- Counterexample to C8: an ICMP EchoRequest whose envelope and IPv4
destinations are 10.0.0.3, not the gateway 10.0.0.1, still gets a
synthesized reply from handle. -/
theorem c8_reply_without_gateway_target_counterexample :
    pktPing.destination ≠ cfgA.gateway ∧
    innerIpv4Dest pktPing ≠ some cfgA.gateway ∧
    isSomeReply (handle handlerA stA pktPing addrA none 0).fst = true := by
  decide

/-- Witness for the amended C8 at the concrete non-gateway EchoRequest. -/
theorem c8_icmp_echo_reply_synthesized_witness :
    handle handlerA stA pktPing addrA none 0 =
      (Except.ok (some { pktPing with
        source := pktPing.destination
        destination := pktPing.source
        gateway := true
        payload := PayloadM.ipv4Payload { ip4Ping with
          source_ip := pktPing.destination
          destination_ip := pktPing.source
          checksum := ipv4HeaderChecksum { ip4Ping with
            payload := IpPayloadM.icmpPayload { icPing with
              kind := IcmpKindM.echoReply
              checksum := icmpChecksum IcmpKindM.echoReply icPing.body }
            source_ip := pktPing.destination
            destination_ip := pktPing.source }
          payload := IpPayloadM.icmpPayload { icPing with
            kind := IcmpKindM.echoReply
            checksum := icmpChecksum IcmpKindM.echoReply icPing.body } } }), stA) :=
  c8_icmp_echo_reply_synthesized handlerA stA pktPing addrA none 0 "T" 167772162 niA
    ip4Ping icPing (by decide) rfl rfl rfl rfl rfl rfl rfl

/-- A context-bearing Control/Ping packet with a five-byte payload. -/
def pktPing5 : NetPacketM :=
  { protocol := ProtocolM.Control
    transport_protocol := TransportM.ping
    encrypted := false
    gateway := false
    source := 0
    destination := 0
    payload := PayloadM.bytes [0, 0, 0, 0, 0]
    sealedWith := none
    rsaBody := none }

/-- Counterexample to C9: a context-bearing Ping whose payload is five
bytes does not fit the four-byte pong buffer, so handle fails the
set_payload length check and returns no Pong at all. -/
theorem c9_oversized_ping_counterexample :
    (handle handlerA stA pktPing5 addrA none 0).fst =
      Except.error (ErrorM.Other "InvalidPacket") := by
  decide

/-- C9 amended: for a context-bearing, plaintext Control/Ping packet whose
payload is exactly the four-byte pong body, handle returns a Pong whose
payload keeps the first two echoed bytes and carries the group's current
epoch reduced modulo 2^16, big-endian, in the trailing epoch field; any
other payload length fails the reply buffer's length check and produces no
Pong. -/
theorem c9_pong_epoch_mod_u16 (h : ServerPacketHandler) (st : ServerState)
    (net_packet : NetPacketM) (addr : SockAddrM) (tcp_sender : Option Nat) (now : Nat)
    (group : String) (vip : Nat) (ni : NetworkInfo) (l : List Nat)
    (hctx : getContext st addr = some (group, vip, ni))
    (henc : net_packet.encrypted = false)
    (hproto : net_packet.protocol = ProtocolM.Control)
    (htrans : net_packet.transport_protocol = TransportM.ping)
    (hpay : net_packet.payload = PayloadM.bytes l)
    (hlen : l.length = 4) :
    handle h st net_packet addr tcp_sender now =
      (Except.ok (some (newEncryptPacket ProtocolM.Control TransportM.pong
        (PayloadM.bytes (l.take 2 ++
          [u16trunc ni.epoch / 256, u16trunc ni.epoch % 256])))), st) := by
  unfold handle
  rw [if_neg (show ¬(net_packet.protocol = ProtocolM.Service ∧
      net_packet.transport_protocol = TransportM.handshakeRequest) from fun hc => by
    rw [hproto] at hc
    exact absurd hc.1 (by simp))]
  rw [if_neg (show ¬(net_packet.protocol = ProtocolM.Service ∧
      net_packet.transport_protocol = TransportM.secretHandshakeRequest) from fun hc => by
    rw [hproto] at hc
    exact absurd hc.1 (by simp))]
  have hgate : (if net_packet.encrypted = true then
      match alGet st.cipher_session addr with
      | some aes => decrypt_ipv4 aes net_packet
      | none => Except.error ErrorM.NoKey
    else Except.ok net_packet) = Except.ok net_packet := by
    rw [if_neg (by simp [henc])]
  rw [hgate]
  simp only
  rw [if_neg (show ¬(net_packet.protocol = ProtocolM.Service ∧
      net_packet.transport_protocol = TransportM.registrationRequest) from fun hc => by
    rw [hproto] at hc
    exact absurd hc.1 (by simp))]
  rw [if_neg (show ¬(net_packet.protocol = ProtocolM.Control ∧
      net_packet.transport_protocol = TransportM.addrRequest) from fun hc => by
    rw [htrans] at hc
    exact absurd hc.2 (by simp))]
  rw [hctx]
  simp only
  rw [hproto]
  simp only
  rw [htrans]
  simp only
  unfold control_ping
  rw [hpay]
  simp only [PayloadM.asBytes]
  unfold setPongPayload
  rw [if_pos hlen]
  simp only
  unfold setPongEpoch
  rfl

/-- A context-bearing Control/Ping packet with the four-byte payload of
spec scenario 4. -/
def pktPing4 : NetPacketM :=
  { protocol := ProtocolM.Control
    transport_protocol := TransportM.ping
    encrypted := false
    gateway := false
    source := 0
    destination := 0
    payload := PayloadM.bytes [0, 0, 0, 0]
    sealedWith := none
    rsaBody := none }

/-- Witness for the amended C9: against group T at epoch 1, a four-byte
Ping yields the Pong body 00 00 00 01. -/
theorem c9_pong_epoch_mod_u16_witness :
    handle handlerA stA pktPing4 addrA none 0 =
      (Except.ok (some (newEncryptPacket ProtocolM.Control TransportM.pong
        (PayloadM.bytes (([0, 0, 0, 0] : List Nat).take 2 ++
          [u16trunc niA.epoch / 256, u16trunc niA.epoch % 256])))), stA) :=
  c9_pong_epoch_mod_u16 handlerA stA pktPing4 addrA none 0 "T" 167772162 niA
    [0, 0, 0, 0] (by decide) rfl rfl rfl rfl rfl

/-- C10: a SecretHandshakeRequest whose body RSA-decrypts to a 32-byte key
installs the AES-256-GCM session for the source address and returns a
SecretHandshakeResponse; the configured white_token allowlist plays no
part in the secret handshake and is enforced only by register. -/
theorem c10_secret_handshake_ignores_allowlist :
    (∀ (h : ServerPacketHandler) (st : ServerState) (net_packet : NetPacketM)
        (addr : SockAddrM) (r : RsaM) (body : SecretHandshakeRequestM),
      h.rsa_cipher = some r →
      net_packet.rsaBody = some body →
      body.key.length = 32 →
      secret_handshake h st net_packet addr =
        (Except.ok (some (newEncryptPacket ProtocolM.Service
          TransportM.secretHandshakeResponse PayloadM.secretHandshakeResponseBody)),
         { st with cipher_session := (alSet st.cipher_session addr
             { key := body.key, finger := body.token }) })) ∧
    (∀ (h : ServerPacketHandler) (wt : Option (List String)) (st : ServerState)
        (net_packet : NetPacketM) (addr : SockAddrM),
      secret_handshake { h with config := { h.config with white_token := wt } } st
          net_packet addr =
        secret_handshake h st net_packet addr) ∧
    (∀ (h : ServerPacketHandler) (st : ServerState) (request : RegistrationRequest)
        (addr : SockAddrM) (tcp_sender : Option Nat) (wtl : List String),
      h.config.white_token = some wtl →
      request.token ∉ wtl →
      check_reg request = Except.ok () →
      register h st request addr tcp_sender = (Except.error ErrorM.TokenError, st)) := by
  refine ⟨?_, ?_, ?_⟩
  · intro h st net_packet addr r body hrsa hbody hk
    unfold secret_handshake
    rw [hrsa, hbody]
    simp only
    rw [if_pos hk]
  · intro h wt st net_packet addr
    rfl
  · intro h st request addr tcp_sender wtl hwt hmem hcheck
    unfold register
    rw [hcheck]
    simp [hwt, hmem]

/-- cfgA with an allowlist that does not contain group T. -/
def cfgW : ConfigInfo := { cfgA with white_token := some ["X"] }

/-- A handler over cfgW holding an RSA key pair. -/
def handlerR : ServerPacketHandler :=
  { config := cfgW, rsa_cipher := some { public_key := [1], key_finger := "f" } }

/-- A SecretHandshakeRequest packet whose body decrypts to a 32-byte key
and the token T, which is not in cfgW's allowlist. -/
def pktSHS : NetPacketM :=
  { protocol := ProtocolM.Service
    transport_protocol := TransportM.secretHandshakeRequest
    encrypted := false
    gateway := false
    source := 0
    destination := 0
    payload := PayloadM.emptyBody
    sealedWith := none
    rsaBody := some { key := List.replicate 32 7, token := "T" } }

/-- Witness for C10: with token T absent from the allowlist, the secret
handshake still installs the session and replies, while a registration
with the same token is rejected with TokenError. -/
theorem c10_secret_handshake_ignores_allowlist_witness :
    secret_handshake handlerR st0 pktSHS addrA =
      (Except.ok (some (newEncryptPacket ProtocolM.Service
        TransportM.secretHandshakeResponse PayloadM.secretHandshakeResponseBody)),
       { st0 with cipher_session := (alSet st0.cipher_session addrA
           { key := List.replicate 32 7, finger := "T" }) }) ∧
    register handlerR st0 reqA addrA none = (Except.error ErrorM.TokenError, st0) :=
  ⟨c10_secret_handshake_ignores_allowlist.1 handlerR st0 pktSHS addrA
      { public_key := [1], key_finger := "f" } { key := List.replicate 32 7, token := "T" }
      rfl rfl (by decide),
   c10_secret_handshake_ignores_allowlist.2.2 handlerR st0 reqA addrA none ["X"]
      rfl (by decide) (by decide)⟩
